import Mathlib

/-!
Shallow embedding of the CapCut draft-consistency core of this repository:
the import registrar and timeline assembly of src/jsonfiller.py
(add_imports, build_timeline, apply_transitions), the consistency doctor
of src/doctor.py (inspect_and_fix), and the identity synchronizer of
src/synchronizer.py (_replace_last_component, sync_all).

Modelling conventions:
  * JSON documents become records holding exactly the fields the embedded
    code writes or reads; constant helper fields that the code writes but
    never reads again (common_keyframes, clip, and float-valued fields
    such as speed=1.0) are elided with a note at each record.
  * Python unbounded integers are Int.
  * uuid.uuid4() is modelled as a counter drawn from an explicit generator
    state (Ident.gen n, n strictly increasing), which captures the code's
    reliance on global uniqueness of freshly minted identifiers; literal
    identifier strings occurring in the source or in pre-existing
    documents are Ident.lit.
  * External I/O collaborators (ffprobe/PIL probing, filesystem cache
    scanning, os.path resolution) are passed in as explicit environment
    functions; random draws of apply_transitions are passed in as an
    oracle giving each cut's decision.
-/

namespace CapCut

/-- Opaque identifiers: a freshly minted uuid4 of this run (gen, numbered by
the draw order of a run's generator state) or a literal identifier string. -/
inductive Ident where
  | gen : Nat → Ident
  | lit : String → Ident
deriving DecidableEq, Repr

/-- Model of jsonfiller._uuid_lower: draw a fresh identifier from the
generator state. -/
def uuid_lower (g : Nat) : Ident × Nat := (Ident.gen g, g + 1)

/-- Model of jsonfiller._uuid_upper: uuid4 draws are globally unique, so the
upper-case and lower-case helpers share one generator state. -/
def uuid_upper (g : Nat) : Ident × Nat := (Ident.gen g, g + 1)

/-- Python truthiness of an identifier rendered with str(): only the empty
string is falsy. -/
def identFalsy : Ident → Bool
  | .gen _ => false
  | .lit s => s == ""

/-- Rendering of an identifier for the doctor's human-readable messages. -/
def identStr : Ident → String
  | .gen n => "uuid-" ++ toString n
  | .lit s => s

/-- Model of Python list.insert(pos, a): positions past the end append. -/
def insertAt {α : Type} : List α → Nat → α → List α
  | l, 0, a => a :: l
  | [], _ + 1, a => [a]
  | x :: xs, n + 1, a => x :: insertAt xs n a

/-- Path separator characters recognised by the source (re.split r"[\x5c/]"
in synchronizer.py, and pathlib component splitting). -/
def isSep (c : Char) : Bool := c == '/' || c == '\\'

/-- Model of re.split(r"[\x5c/]", s) on the character list of s: always
returns at least one (possibly empty) part. -/
def splitSeps : List Char → List (List Char)
  | [] => [[]]
  | c :: rest =>
    if isSep c then [] :: splitSeps rest
    else
      match splitSeps rest with
      | [] => [[c]]
      | p :: ps => (c :: p) :: ps

/-- Join parts with a single separator character (sep.join in Python). -/
def joinSep (sep : Char) : List (List Char) → List Char
  | [] => []
  | [p] => p
  | p :: ps => p ++ sep :: joinSep sep ps

/-- The dominant original separator chosen by _replace_last_component: a
backslash when backslashes occur at least as often as forward slashes,
else a forward slash. -/
def dominantSep (l : List Char) : Char :=
  if l.contains '\\' ∧ l.count '\\' ≥ l.count '/' then '\\' else '/'

/-- Last path component of a character list (pathlib Path(p).name for paths
without a trailing separator). -/
def lastComponent (l : List Char) : List Char := (splitSeps l).getLastD []

/-- Index of the last dot in a file name (str.rfind of pathlib suffix). -/
def rfindDotIdx (name : List Char) : Option Nat :=
  match name.reverse.findIdx? (fun c => c == '.') with
  | none => none
  | some k => some (name.length - 1 - k)

/-- Model of pathlib suffix on a file name: the part from the last dot,
provided the dot is neither the first nor the last character. -/
def pathSuffix (name : List Char) : List Char :=
  match rfindDotIdx name with
  | none => []
  | some i => if 0 < i ∧ i < name.length - 1 then name.drop i else []

/-- Model of jsonfiller._fname: the file name (last component) of a path. -/
def fname (p : String) : String := String.mk (lastComponent p.toList)

/-- Lower-cased extension of a path, as Path(p).suffix.lower(). -/
def suffixLower (p : String) : String :=
  String.mk ((pathSuffix (lastComponent p.toList)).map Char.toLower)

/-- Extension sets of jsonfiller.py. -/
def VIDEO_EXT : List String :=
  [".mp4", ".mov", ".mkv", ".m4v", ".avi", ".webm", ".3gp", ".mts", ".m2ts"]

/-- Audio extensions of jsonfiller.py. -/
def AUDIO_EXT : List String := [".mp3", ".m4a", ".wav", ".aac", ".ogg", ".flac"]

/-- Image extensions of jsonfiller.py. -/
def IMG_EXT : List String := [".jpg", ".jpeg", ".png", ".webp", ".bmp"]

/-- Model of jsonfiller._is_video. -/
def is_video (p : String) : Bool := VIDEO_EXT.contains (suffixLower p)

/-- Model of jsonfiller._is_audio. -/
def is_audio (p : String) : Bool := AUDIO_EXT.contains (suffixLower p)

/-- Model of jsonfiller._is_image. -/
def is_image (p : String) : Bool := IMG_EXT.contains (suffixLower p)

/-- Model of jsonfiller._abs: Path(p).expanduser().resolve() is a filesystem
operation outside this core; it is modelled as the identity on
already-normalised path strings. -/
def pyAbs (p : String) : String := p

/-- Timerange object: start and duration in microseconds. -/
structure TimeRange where
  start : Int
  duration : Int
deriving DecidableEq, Repr

/-- Timeline segment. The constant-initialised common_keyframes list and the
float-valued clip scaling object written by build_timeline are never read
subsequently and are elided. -/
structure Segment where
  id : Ident
  material_id : Ident
  target_timerange : TimeRange
  source_timerange : TimeRange
  extra_material_refs : List Ident
deriving DecidableEq, Repr

/-- Track of the content document. -/
structure Track where
  id : Ident
  type : String
  segments : List Segment
deriving DecidableEq, Repr

/-- Entry of materials.videos (images and videos share this array,
disambiguated by the type tag photo/video). -/
structure VideoMaterial where
  id : Ident
  local_material_id : Option Ident
  type : String
  path : String
  width : Int
  height : Int
  duration : Int
  category_name : String
  source_platform : Int
deriving DecidableEq, Repr

/-- Entry of materials.audios. -/
structure AudioMaterial where
  id : Ident
  local_material_id : Option Ident
  path : String
  type : String
  name : String
  duration : Int
deriving DecidableEq, Repr

/-- Entry of materials.transitions, as built by apply_transitions. -/
structure TransitionMaterial where
  id : Ident
  name : String
  duration : Int
  is_overlap : Bool
  category_id : String
  category_name : String
  effect_id : String
  resource_id : String
  third_resource_id : String
  platform : String
  source_platform : Int
  type : String
  path : String
  video_path : String
  request_id : String
  task_id : String
  is_ai_transition : Bool
deriving DecidableEq, Repr

/-- Speed accessory material (the constant float field speed=1.0 and the
null curve_speed are elided). -/
structure SpeedMaterial where
  id : Ident
  mode : Int
  type : String
deriving DecidableEq, Repr

/-- Placeholder-info accessory material. -/
structure PlaceholderMaterial where
  error_path : String
  error_text : String
  id : Ident
  meta_type : String
  res_path : String
  res_text : String
  type : String
deriving DecidableEq, Repr

/-- Sound-channel-mapping accessory material. -/
structure SoundChannelMapping where
  audio_channel_mapping : Int
  id : Ident
  is_config_open : Bool
  type : String
deriving DecidableEq, Repr

/-- Named material arrays of the content document, as ensured by
_ensure_content_scaffolding. -/
structure Materials where
  videos : List VideoMaterial
  audios : List AudioMaterial
  transitions : List TransitionMaterial
  speeds : List SpeedMaterial
  placeholder_infos : List PlaceholderMaterial
  sound_channel_mappings : List SoundChannelMapping
deriving DecidableEq, Repr

/-- Content document (draft_content). -/
structure DraftContent where
  duration : Int
  materials : Materials
  tracks : List Track
deriving DecidableEq, Repr

/-- Import record of the meta-info catalog, as written by add_imports.
Width/height are absent on audio records and duration is absent on image
records, hence the Option types. -/
structure ImportRecord where
  id : Ident
  path : String
  file_name : String
  file_Path : String
  material_name : String
  width : Option Int
  height : Option Int
  duration : Option Int
  category_name : String
  source_platform : Int
deriving DecidableEq, Repr

/-- Typed bucket of draft_meta_info.draft_materials. -/
structure MetaBucket where
  type : Nat
  value : List ImportRecord
deriving DecidableEq, Repr

/-- Meta-info document (draft_meta_info); fields not read by the embedded
code are elided. -/
structure MetaInfo where
  draft_materials : List MetaBucket
  draft_name : String
  draft_fold_path : String
  tm_duration : Int
deriving DecidableEq, Repr

/-- Child entry of the virtual store, exactly as add_imports appends it. -/
structure VChild where
  child_id : Ident
deriving DecidableEq, Repr

/-- Typed bucket of draft_virtual_store. -/
structure VBucket where
  type : Nat
  value : List VChild
deriving DecidableEq, Repr

/-- Virtual-store document (draft_virtual_store). -/
structure VirtualStore where
  draft_virtual_store : List VBucket
deriving DecidableEq, Repr

/-- One record of the idmaps lists returned by add_imports. -/
structure ImportMapEntry where
  path : String
  import_id : Ident
deriving DecidableEq, Repr

/-- The idmaps dictionary returned by add_imports. -/
structure IdMaps where
  images : List ImportMapEntry
  audios : List ImportMapEntry
deriving DecidableEq, Repr

/-- External probing collaborators: results of _probe_video_meta (width,
height, duration in microseconds, with its internal ffprobe fallbacks
already applied), _get_img_size and _get_audio_duration_us. -/
structure ProbeEnv where
  probe_video_meta : String → Int × Int × Int
  get_img_size : String → Int × Int
  get_audio_duration_us : String → Option Int

/-- Model of _find_or_create_meta_bucket, creation part: a bucket of the
requested type is appended when none exists. -/
def ensureMetaBucket (buckets : List MetaBucket) (t : Nat) : List MetaBucket :=
  if buckets.any (fun b => b.type == t) then buckets else buckets ++ [⟨t, []⟩]

/-- Appending items to the value list of the first bucket of the given type
(the list python mutates in place after _find_or_create_meta_bucket). -/
def appendMetaBucket : List MetaBucket → Nat → List ImportRecord → List MetaBucket
  | [], _, _ => []
  | b :: rest, t, items =>
    if b.type == t then ⟨b.type, b.value ++ items⟩ :: rest
    else b :: appendMetaBucket rest t items

/-- Model of _find_or_create_vstore_bucket, creation part. -/
def ensureVBucket (buckets : List VBucket) (t : Nat) : List VBucket :=
  if buckets.any (fun b => b.type == t) then buckets else buckets ++ [⟨t, []⟩]

/-- Appending children to the first virtual-store bucket of the given type. -/
def appendVBucket : List VBucket → Nat → List VChild → List VBucket
  | [], _, _ => []
  | b :: rest, t, items =>
    if b.type == t then ⟨b.type, b.value ++ items⟩ :: rest
    else b :: appendVBucket rest t items

/-- Value list of the first meta bucket of the given type (empty when no
such bucket exists). -/
def metaBucketValue (dmi : MetaInfo) (t : Nat) : List ImportRecord :=
  match dmi.draft_materials.find? (fun b => b.type == t) with
  | some b => b.value
  | none => []

/-- Value list of the first virtual-store bucket of the given type. -/
def vBucketValue (dvs : VirtualStore) (t : Nat) : List VChild :=
  match dvs.draft_virtual_store.find? (fun b => b.type == t) with
  | some b => b.value
  | none => []

/-- Result of one registration loop of add_imports: appended meta records,
virtual-store children, idmap entries, and the final generator state. -/
structure ImportRun where
  records : List ImportRecord
  children : List VChild
  entries : List ImportMapEntry
  gen : Nat
deriving DecidableEq, Repr

/-- The import payload add_imports builds for one image or video path. -/
def importPayload (env : ProbeEnv) (path : String) (import_id : Ident) : ImportRecord :=
  if is_video path then
    let whd := env.probe_video_meta path
    { id := import_id, path := path, file_name := fname path,
      file_Path := path, material_name := fname path,
      width := some whd.1, height := some whd.2.1, duration := some whd.2.2,
      category_name := "local", source_platform := 0 }
  else
    let wh := env.get_img_size path
    { id := import_id, path := path, file_name := fname path,
      file_Path := path, material_name := fname path,
      width := some wh.1, height := some wh.2, duration := none,
      category_name := "local", source_platform := 0 }

/-- The image/video loop of add_imports: for each path of the images list
(which may hold both photos and videos) mint one identifier, build
the import payload, and record the child entry and idmap entry. -/
def importImages (env : ProbeEnv) : List String → Nat → ImportRun
  | [], g => ⟨[], [], [], g⟩
  | img :: rest, g =>
    let path := pyAbs img
    let import_id := Ident.gen g
    let r := importImages env rest (g + 1)
    ⟨importPayload env path import_id :: r.records,
     ⟨import_id⟩ :: r.children, ⟨path, import_id⟩ :: r.entries, r.gen⟩

/-- The single-audio registration of add_imports (only sounds[0] is
registered by the source). -/
def importSound (env : ProbeEnv) (sounds : List String) (g : Nat) : ImportRun :=
  match sounds with
  | [] => ⟨[], [], [], g⟩
  | a :: _ =>
    let apath := pyAbs a
    let dur_us := (env.get_audio_duration_us apath).getD 0
    let aud_imp_id := Ident.gen g
    ⟨[{ id := aud_imp_id, path := apath, file_name := fname apath,
        file_Path := apath, material_name := fname apath,
        width := none, height := none, duration := some dur_us,
        category_name := "local", source_platform := 0 }],
     [⟨aud_imp_id⟩], [⟨apath, aud_imp_id⟩], g + 1⟩

/-- Model of jsonfiller.add_imports: registers media in the meta catalog
(type-0 bucket) and the virtual store (type-1 bucket) and returns the
path-to-identifier maps. Only the first entry of sounds is registered
(single-audio support in the source). The id_strategy parameter of the
source is never read and is elided. -/
def add_imports (draft_meta_info : MetaInfo) (draft_virtual_store : VirtualStore)
    (images sounds : List String) (env : ProbeEnv) (g : Nat) :
    MetaInfo × VirtualStore × IdMaps × Nat :=
  let metaBuckets := ensureMetaBucket draft_meta_info.draft_materials 0
  let vBuckets := ensureVBucket draft_virtual_store.draft_virtual_store 1
  let ri := importImages env images g
  let ra := importSound env sounds ri.gen
  ({ draft_meta_info with
      draft_materials := appendMetaBucket metaBuckets 0 (ri.records ++ ra.records) },
   { draft_virtual_store with
      draft_virtual_store := appendVBucket vBuckets 1 (ri.children ++ ra.children) },
   { images := ri.entries, audios := ra.entries }, ra.gen)

/-- Lookup in the path-to-import-id dictionary built by build_timeline:
later insertions overwrite earlier ones, so the last matching entry wins. -/
def impLookup (entries : List ImportMapEntry) (p : String) : Option Ident :=
  match entries.reverse.find? (fun e => e.path == p) with
  | some e => some e.import_id
  | none => none

/-- The imp_map insertion order of build_timeline: image entries first,
then audio entries. -/
def idmapEntries (idmaps : Option IdMaps) : List ImportMapEntry :=
  match idmaps with
  | some m => m.images ++ m.audios
  | none => []

/-- Result of _create_accessory_materials: the freshly built accessory
materials and their identifier lists, plus the final generator state. -/
structure AccessoryRun where
  speeds : List SpeedMaterial
  placeholder_infos : List PlaceholderMaterial
  sound_channel_mappings : List SoundChannelMapping
  speed_ids : List Ident
  placeholder_ids : List Ident
  sound_mapping_ids : List Ident
  gen : Nat
deriving Repr

/-- Model of jsonfiller._create_accessory_materials: one speed, one
placeholder-info and one sound-channel-mapping material per segment, in
that per-iteration order. -/
def create_accessory_materials : Nat → Nat → AccessoryRun
  | 0, g => ⟨[], [], [], [], [], [], g⟩
  | n + 1, g =>
    let (speed_id, g1) := uuid_upper g
    let (placeholder_id, g2) := uuid_upper g1
    let (sound_id, g3) := uuid_upper g2
    let r := create_accessory_materials n g3
    ⟨{ id := speed_id, mode := 0, type := "speed" } :: r.speeds,
     { error_path := "", error_text := "", id := placeholder_id,
       meta_type := "none", res_path := "", res_text := "",
       type := "placeholder_info" } :: r.placeholder_infos,
     { audio_channel_mapping := 0, id := sound_id, is_config_open := false,
       type := "" } :: r.sound_channel_mappings,
     speed_id :: r.speed_ids, placeholder_id :: r.placeholder_ids,
     sound_id :: r.sound_mapping_ids, r.gen⟩

/-- Clip summary entry of the cache dictionary returned by build_timeline. -/
structure ClipInfo where
  material_id : Ident
  path : String
  start_us : Int
  dur_us : Int
deriving DecidableEq, Repr

/-- Catalog entry of a transition definition, as read by apply_transitions
via spec.get(...) with the respective defaults; absent keys are none. -/
structure TransSpec where
  name : Option String
  effect_id : Option String
  resource_id : Option String
  is_overlap : Option Bool
  category_id : Option String
  category_name : Option String
  third_resource_id : Option String
deriving DecidableEq, Repr

/-- The timeline summary dictionary threaded between build_timeline and
apply_transitions; the catalog and cache_root keys are injected by the
caller before apply_transitions runs (empty on build_timeline's output). -/
structure Timeline where
  clips : List ClipInfo
  audio : List ClipInfo
  catalog : List TransSpec
  cache_root : String
deriving DecidableEq, Repr

/-- First track of the given kind (next(t for t in tracks if type==kind)). -/
def first_track (tracks : List Track) (kind : String) : Option Track :=
  tracks.find? (fun t => t.type == kind)

/-- In-place mutation of the first track satisfying the predicate. -/
def updateFirstTrack (p : Track → Bool) (f : Track → Track) : List Track → List Track
  | [] => []
  | t :: ts => if p t then f t :: ts else t :: updateFirstTrack p f ts

/-- The find-or-create step of build_timeline for the video track: when no
video track exists, append a fresh one with a minted identifier. -/
def ensureVideoTrack (tracks : List Track) (g : Nat) : List Track × Nat :=
  match first_track tracks ("video") with
  | some _ => (tracks, g)
  | none => (tracks ++ [({ id := Ident.gen g, type := "video", segments := [] } : Track)], g + 1)

/-- Appending the freshly built segments to the (first) video track, the
in-place list mutation of build_timeline. -/
def attachVideoSegs (tracks : List Track) (ns : List Segment) : List Track :=
  updateFirstTrack (fun t => t.type == "video")
    (fun t => { t with segments := t.segments ++ ns }) tracks

/-- The find-or-create step of build_timeline for the audio track. -/
def ensureAudioTrack (tracks : List Track) (g : Nat) : List Track × Nat :=
  match first_track tracks ("audio") with
  | some _ => (tracks, g)
  | none => (tracks ++ [({ id := Ident.gen g, type := "audio", segments := [] } : Track)], g + 1)

/-- Appending the audio segment to the (first) audio track. -/
def attachAudioSeg (tracks : List Track) (s : Segment) : List Track :=
  updateFirstTrack (fun t => t.type == "audio")
    (fun t => { t with segments := t.segments ++ [s] }) tracks

/-- State of the per-asset loop of build_timeline: appended video materials,
appended segments, clip summaries, the timeline cursor after the loop, and
the final generator state. -/
structure ClipsRun where
  videos : List VideoMaterial
  segments : List Segment
  clips : List ClipInfo
  cursor : Int
  gen : Nat
deriving Repr

/-- The per-asset loop of build_timeline. Runs over the images list zipped
with the accessory identifier lists created beforehand (speed_ids[i],
placeholder_ids[i], sound_mapping_ids[i] indexed by the loop counter in the
source). Videos take probed dimensions and duration; images take probed
dimensions and the configured per-image duration, and are stored in the
videos array with type photo. -/
def buildClips (env : ProbeEnv) (entries : List ImportMapEntry) (defDurMs : Int) :
    List String → List Ident → List Ident → List Ident → Int → Nat → ClipsRun
  | p :: ps, sid :: sids, pid :: pids, mid :: mids, t_cursor, g =>
    let path := pyAbs p
    let local_id := impLookup entries path
    if is_video path then
      let whd := env.probe_video_meta path
      let dur_us := whd.2.2
      let mat_id := Ident.gen g
      let vm : VideoMaterial :=
        { id := mat_id, local_material_id := local_id, type := "video",
          path := path, width := whd.1, height := whd.2.1, duration := dur_us,
          category_name := "local", source_platform := 0 }
      let seg_id := Ident.gen (g + 1)
      let seg : Segment :=
        { id := seg_id, material_id := mat_id,
          target_timerange := ⟨t_cursor, dur_us⟩,
          source_timerange := ⟨0, dur_us⟩,
          extra_material_refs := [sid, pid, mid] }
      let r := buildClips env entries defDurMs ps sids pids mids (t_cursor + dur_us) (g + 2)
      ⟨vm :: r.videos, seg :: r.segments,
       ⟨mat_id, path, t_cursor, dur_us⟩ :: r.clips, r.cursor, r.gen⟩
    else
      let wh := env.get_img_size path
      let dur_us := defDurMs * 1000
      let mat_id := Ident.gen g
      let vm : VideoMaterial :=
        { id := mat_id, local_material_id := local_id, type := "photo",
          path := path, width := wh.1, height := wh.2, duration := dur_us,
          category_name := "local", source_platform := 0 }
      let seg_id := Ident.gen (g + 1)
      let seg : Segment :=
        { id := seg_id, material_id := mat_id,
          target_timerange := ⟨t_cursor, dur_us⟩,
          source_timerange := ⟨0, dur_us⟩,
          extra_material_refs := [sid, pid, mid] }
      let r := buildClips env entries defDurMs ps sids pids mids (t_cursor + dur_us) (g + 2)
      ⟨vm :: r.videos, seg :: r.segments,
       ⟨mat_id, path, t_cursor, dur_us⟩ :: r.clips, r.cursor, r.gen⟩
  | _, _, _, _, t_cursor, g => ⟨[], [], [], t_cursor, g⟩

/-- Model of jsonfiller.build_timeline: create materials and segments on
tracks, wiring local_material_id from the idmaps of add_imports. The
ordering parameter of the source is never read inside the function (input
order is kept) and is elided; _ensure_content_scaffolding is the identity
on the record model, where every material array is always present. Only
the first entry of sounds is placed (single-audio support in the source). -/
def build_timeline (draft_content : DraftContent) (images sounds : List String)
    (default_image_duration_ms : Int) (idmaps : Option IdMaps) (env : ProbeEnv)
    (g : Nat) : DraftContent × Timeline × Nat :=
  let dc := draft_content
  let tg := ensureVideoTrack dc.tracks g
  let tracks1 := tg.1
  let g1 := tg.2
  let entries := idmapEntries idmaps
  let acc := create_accessory_materials images.length g1
  let r := buildClips env entries default_image_duration_ms images
    acc.speed_ids acc.placeholder_ids acc.sound_mapping_ids 0 acc.gen
  let video_duration := r.cursor
  let mats1 : Materials :=
    { dc.materials with
      videos := dc.materials.videos ++ r.videos,
      speeds := dc.materials.speeds ++ acc.speeds,
      placeholder_infos := dc.materials.placeholder_infos ++ acc.placeholder_infos,
      sound_channel_mappings :=
        dc.materials.sound_channel_mappings ++ acc.sound_channel_mappings }
  let tracks2 := attachVideoSegs tracks1 r.segments
  match sounds with
  | [] =>
    ({ duration := max video_duration 0, materials := mats1, tracks := tracks2 },
     { clips := r.clips, audio := [], catalog := [], cache_root := "" }, r.gen)
  | a :: _ =>
    let apath := pyAbs a
    let aud_imp := impLookup entries apath
    let dur_us :=
      match env.get_audio_duration_us apath with
      | none => video_duration
      | some d => if d == 0 then video_duration else d
    let audio_duration := dur_us
    let am_id := Ident.gen r.gen
    let g2 := r.gen + 1
    let am : AudioMaterial :=
      { id := am_id, local_material_id := aud_imp, path := apath,
        type := "extract_music", name := fname apath, duration := dur_us }
    let ta := ensureAudioTrack tracks2 g2
    let tracks3 := ta.1
    let g3 := ta.2
    let audio_speed_id := Ident.gen g3
    let audio_placeholder_id := Ident.gen (g3 + 1)
    let audio_sound_id := Ident.gen (g3 + 2)
    let mats2 : Materials :=
      { mats1 with
        audios := mats1.audios ++ [am],
        speeds := mats1.speeds ++
          [{ id := audio_speed_id, mode := 0, type := "speed" }],
        placeholder_infos := mats1.placeholder_infos ++
          [{ error_path := "", error_text := "", id := audio_placeholder_id,
             meta_type := "none", res_path := "", res_text := "",
             type := "placeholder_info" }],
        sound_channel_mappings := mats1.sound_channel_mappings ++
          [{ audio_channel_mapping := 0, id := audio_sound_id,
             is_config_open := false, type := "" }] }
    let seg_id := Ident.gen (g3 + 3)
    let aseg : Segment :=
      { id := seg_id, material_id := am_id,
        target_timerange := ⟨0, dur_us⟩, source_timerange := ⟨0, dur_us⟩,
        extra_material_refs := [audio_speed_id, audio_placeholder_id, audio_sound_id] }
    let tracks4 := attachAudioSeg tracks3 aseg
    ({ duration := max video_duration audio_duration, materials := mats2,
       tracks := tracks4 },
     { clips := r.clips, audio := [⟨am_id, apath, 0, dur_us⟩],
       catalog := [], cache_root := "" }, g3 + 4)

/-- Per-cut random decisions of apply_transitions: skip is the outcome of
the comparison random.random() > p against the clamped per-cut
probability, choiceIdx picks the catalog entry of random.choice, and
wantMs is the millisecond duration drawn by random.randint(dmin, dmax). -/
structure TransChoice where
  skip : Bool
  choiceIdx : Nat
  wantMs : Int
deriving DecidableEq, Repr

/-- Catalog entry with every key absent, never selected in a run with a
non-empty catalog (random.choice indexes a non-empty list). -/
def defaultTransSpec : TransSpec := ⟨none, none, none, none, none, none, none⟩

/-- Python string truthiness: keeps a present, non-empty string. -/
def truthyStr : Option String → Option String
  | some s => if s == "" then none else some s
  | none => none

/-- The effect_id resolution of apply_transitions:
str(spec.get(effect_id) or spec.get(resource_id) or empty). -/
def transEffectId (spec : TransSpec) : String :=
  match truthyStr spec.effect_id with
  | some s => s
  | none =>
    match truthyStr spec.resource_id with
    | some s => s
    | none => ""

/-- The transition material dictionary appended by apply_transitions. -/
def mkTransitionMaterial (spec : TransSpec) (tid : Ident) (dur_us : Int)
    (path : String) (effect_id : String) : TransitionMaterial :=
  { id := tid,
    name := spec.name.getD ("Transition"),
    duration := dur_us,
    is_overlap := spec.is_overlap.getD true,
    category_id := spec.category_id.getD ("25822"),
    category_name := spec.category_name.getD ("Trending"),
    effect_id := effect_id,
    resource_id := spec.resource_id.getD effect_id,
    third_resource_id :=
      spec.third_resource_id.getD (if effect_id == "" then "0" else effect_id),
    platform := "all",
    source_platform := 1,
    type := "transition",
    path := path,
    video_path := "",
    request_id := "",
    task_id := "",
    is_ai_transition := false }

/-- Python falsy-or on integers: zero falls through to the alternative. -/
def pyOrInt (a b : Int) : Int := if a == 0 then b else a

/-- The optional allow-list filter of apply_transitions: restrict the
catalog to the wanted names, falling back to the full catalog when the
filter empties it. -/
def filteredCatalog (catalog0 : List TransSpec) (names : List String) : List TransSpec :=
  if names.isEmpty then catalog0
  else
    let filtered := catalog0.filter (fun c =>
      match c.name with
      | some n => names.contains n
      | none => false)
    if filtered.isEmpty then catalog0 else filtered

/-- The cut loop of apply_transitions over adjacent segment pairs. For each
non-skipped cut: choose a catalog entry, clamp the sampled duration to
max(200000, min(want, prev-or-want, next-or-want)), append the transition
material, and splice its identifier into the preceding segment's
extra_material_refs at index 2 when that list has at least two entries
(at the end otherwise), unless the identifier is already present. The
following segment of the cut is never touched. Returns the updated
segments, the appended transition materials in cut order, and the final
generator state. -/
def applyTransLoop (catalog : List TransSpec) (cache_root : String)
    (resolve : String → String → String) (oracle : Nat → TransChoice) :
    Nat → List Segment → Nat → List Segment × List TransitionMaterial × Nat
  | _, [], g => ([], [], g)
  | _, [s], g => ([s], [], g)
  | i, s0 :: s1 :: rest, g =>
    let ch := oracle i
    if ch.skip then
      let r := applyTransLoop catalog cache_root resolve oracle (i + 1) (s1 :: rest) g
      (s0 :: r.1, r.2.1, r.2.2)
    else
      let spec := catalog.getD (ch.choiceIdx % catalog.length) defaultTransSpec
      let want_us := ch.wantMs * 1000
      let prev_us := s0.target_timerange.duration
      let next_us := s1.target_timerange.duration
      let dur_us := max 200000 (min want_us (min (pyOrInt prev_us want_us) (pyOrInt next_us want_us)))
      let effect_id := transEffectId spec
      let path := if effect_id == "" then "" else resolve cache_root effect_id
      let tid := Ident.gen g
      let tmat := mkTransitionMaterial spec tid dur_us path effect_id
      let refs := s0.extra_material_refs
      let insert_pos := if refs.length ≥ 2 then 2 else refs.length
      let s0' :=
        if tid ∈ refs then s0
        else { s0 with extra_material_refs := insertAt refs insert_pos tid }
      let r := applyTransLoop catalog cache_root resolve oracle (i + 1) (s1 :: rest) (g + 1)
      (s0' :: r.1, tmat :: r.2.1, r.2.2)

/-- Model of jsonfiller.apply_transitions. The per_cut_probability float
parameter of the source only feeds the per-cut random comparison, which
the oracle's skip bit models, and the duration_ms_range guard rails
(defaulting and min/max auto-swap) only shape the range of the randint
draw modelled by the oracle's wantMs; both parameters are therefore
elided. The resolve argument models the filesystem scan of
_resolve_transition_cache_path, which the source short-circuits to the
empty string when effect_id is empty. No-ops (returning the input content
unchanged) when there is no video track, fewer than two segments, or an
empty catalog. An allow-list of names filters the catalog unless the
filter empties it. -/
def apply_transitions (draft_content : DraftContent) (timeline : Timeline)
    (names : List String) (resolve : String → String → String)
    (oracle : Nat → TransChoice) (g : Nat) : DraftContent × Timeline × Nat :=
  let dc := draft_content
  match first_track dc.tracks ("video") with
  | none => (dc, timeline, g)
  | some vtrack =>
    let segs := vtrack.segments
    if segs.length < 2 then (dc, timeline, g)
    else
      let catalog0 := timeline.catalog
      if catalog0.isEmpty then (dc, timeline, g)
      else
        let catalog := filteredCatalog catalog0 names
        let r := applyTransLoop catalog timeline.cache_root resolve oracle 0 segs g
        ({ dc with
            materials := { dc.materials with
              transitions := dc.materials.transitions ++ r.2.1 },
            tracks := updateFirstTrack (fun t => t.type == "video")
              (fun t => { t with segments := r.1 }) dc.tracks },
         timeline, r.2.2)

/-- Model of doctor._video_span: running maximum of start+duration over the
segments of the first video track. -/
def video_span (dc : DraftContent) : Int :=
  match first_track dc.tracks ("video") with
  | none => 0
  | some vtrack =>
    vtrack.segments.foldl
      (fun e seg => max e (seg.target_timerange.start + seg.target_timerange.duration)) 0

/-- Model of doctor._audio_span. -/
def audio_span (dc : DraftContent) : Int :=
  match first_track dc.tracks ("audio") with
  | none => 0
  | some atrack =>
    atrack.segments.foldl
      (fun e seg => max e (seg.target_timerange.start + seg.target_timerange.duration)) 0

/-- Type tag and duration of a material, as doctor reads them from the
index (mat.get duration defaulting to zero on accessory materials). -/
structure IndexEntry where
  type : String
  duration : Int
deriving DecidableEq, Repr

/-- The id-to-material entries of doctor._material_index in dict insertion
order: the material buckets in the order _ensure_material_buckets creates
them; optional extra buckets (beats, loudnesses, ...) that the embedded
pipeline never fills are elided. Falsy (empty-string) ids are skipped. -/
def materialIndexEntries (m : Materials) : List (Ident × IndexEntry) :=
  (m.videos.map (fun v => (v.id, (⟨v.type, v.duration⟩ : IndexEntry)))
    ++ m.audios.map (fun a => (a.id, (⟨a.type, a.duration⟩ : IndexEntry)))
    ++ m.transitions.map (fun t => (t.id, (⟨t.type, t.duration⟩ : IndexEntry)))
    ++ m.speeds.map (fun s => (s.id, (⟨s.type, 0⟩ : IndexEntry)))
    ++ m.placeholder_infos.map (fun p => (p.id, (⟨p.type, 0⟩ : IndexEntry)))
    ++ m.sound_channel_mappings.map (fun s => (s.id, (⟨s.type, 0⟩ : IndexEntry)))
  ).filter (fun e => !identFalsy e.1)

/-- Dictionary lookup in the material index: the last insertion of a key
wins. -/
def materialIndexFind (m : Materials) (i : Ident) : Option IndexEntry :=
  match (materialIndexEntries m).reverse.find? (fun e => e.1 == i) with
  | some e => some e.2
  | none => none

/-- Issue lines of the doctor's segment material_id check for one track,
with the segment position enumerated. -/
def segMaterialIssues (kind : String) (segs : List Segment) (m : Materials) : List String :=
  segs.enum.filterMap (fun e =>
    let mid := e.2.material_id
    if identFalsy mid ∨ materialIndexFind m mid = none then
      some (kind ++ " segment " ++ toString e.1 ++
        " references missing material_id=" ++ identStr mid ++ ".")
    else none)

/-- Model of doctor._import_ids: identifiers found in every type-0 bucket of
the meta catalog, skipping falsy ids. Built as a list; the doctor only
tests membership. -/
def importIdsList (dmi : MetaInfo) : List Ident :=
  ((dmi.draft_materials.filter (fun b => b.type == 0)).map
    (fun b => (b.value.map (fun v => v.id)).filter (fun i => !identFalsy i))).flatten

/-- Issue lines of the doctor's local_material_id check for video
materials. -/
def videoMatIssues (m : Materials) (importIds : List Ident) : List String :=
  m.videos.filterMap (fun vm =>
    match vm.local_material_id with
    | none => some ("Video material " ++ identStr vm.id ++ " missing local_material_id.")
    | some l =>
      if identFalsy l then
        some ("Video material " ++ identStr vm.id ++ " missing local_material_id.")
      else if importIds.contains l then none
      else some ("Video material " ++ identStr vm.id ++
        " local_material_id not found in draft_meta_info imports."))

/-- Issue lines of the doctor's local_material_id check for audio
materials. -/
def audioMatIssues (m : Materials) (importIds : List Ident) : List String :=
  m.audios.filterMap (fun am =>
    match am.local_material_id with
    | none => some ("Audio material " ++ identStr am.id ++ " missing local_material_id.")
    | some l =>
      if identFalsy l then
        some ("Audio material " ++ identStr am.id ++ " missing local_material_id.")
      else if importIds.contains l then none
      else some ("Audio material " ++ identStr am.id ++
        " local_material_id not found in draft_meta_info imports."))

/-- The doctor's transition duration sanity pass over adjacent video cut
pairs: a referenced transition whose duration is below 200ms, or above the
smaller of the two (non-zero) neighbouring segment durations, is reported. -/
def transSanityIssues (m : Materials) : Nat → List Segment → List String
  | _, [] => []
  | _, [_] => []
  | i, s0 :: s1 :: rest =>
    (s0.extra_material_refs.filterMap (fun ref =>
      match materialIndexFind m ref with
      | none => none
      | some mat =>
        if mat.type == "transition" then
          let tdur := mat.duration
          let prev_d := s0.target_timerange.duration
          let next_d := s1.target_timerange.duration
          if tdur < 200000 ∨ (prev_d ≠ 0 ∧ next_d ≠ 0 ∧ tdur > min prev_d next_d) then
            some ("Transition " ++ identStr ref ++ " duration " ++ toString tdur ++
              "us not safe for cut " ++ toString i ++ "-" ++ toString (i + 1) ++
              " (prev=" ++ toString prev_d ++ ", next=" ++ toString next_d ++ ").")
          else none
        else none)) ++ transSanityIssues m (i + 1) (s1 :: rest)

/-- Summary block of the doctor's report. -/
structure Summary where
  video_span_us : Int
  audio_span_us : Int
  content_duration_us : Int
  tm_duration_us : Int
  num_video_segments : Nat
  num_audio_segments : Nat
  num_transitions : Nat
deriving DecidableEq, Repr

/-- Report returned by inspect_and_fix. -/
structure Report where
  issues : List String
  fixes : List String
  patched : Bool
  draft_content : DraftContent
  draft_meta_info : MetaInfo
  draft_virtual_store : VirtualStore
  summary : Summary
deriving DecidableEq, Repr

/-- Step 1 of inspect_and_fix: existence of the video track, with the
autofix inserting an empty one. Returns the (possibly patched) content,
the issue lines, the fix lines and the patched flag of this step. -/
def doctorTrackStage (dc : DraftContent) (autofix : Bool) :
    DraftContent × List String × List String × Bool :=
  if (first_track dc.tracks ("video")).isSome then (dc, [], [], false)
  else if autofix then
    ({ dc with tracks := dc.tracks ++
        [({ id := Ident.lit ("VIDEO_TRACK"), type := "video", segments := [] } : Track)] },
     ["Missing video track."], ["Inserted empty video track."], true)
  else (dc, ["Missing video track."], [], false)

/-- Step 4a of inspect_and_fix: draft_content.duration must equal the
maximum of the video and audio spans; autofix overwrites it. -/
def doctorDurationStage (dc : DraftContent) (autofix : Bool) :
    DraftContent × List String × List String × Bool :=
  let expected := max (video_span dc) (audio_span dc)
  if dc.duration == expected then (dc, [], [], false)
  else if autofix then
    ({ dc with duration := expected },
     ["draft_content.duration=" ++ toString dc.duration ++
       " but expected " ++ toString expected ++ "."],
     ["Set draft_content.duration=" ++ toString expected ++ "."], true)
  else
    (dc,
     ["draft_content.duration=" ++ toString dc.duration ++
       " but expected " ++ toString expected ++ "."], [], false)

/-- Step 4b of inspect_and_fix: draft_meta_info.tm_duration must mirror the
(possibly fixed) content duration; autofix overwrites it. -/
def doctorTmStage (dmi : MetaInfo) (dcDur : Int) (autofix : Bool) :
    MetaInfo × List String × List String × Bool :=
  if dmi.tm_duration == dcDur then (dmi, [], [], false)
  else if autofix then
    ({ dmi with tm_duration := dcDur },
     ["draft_meta_info.tm_duration=" ++ toString dmi.tm_duration ++
       " does not mirror draft_content.duration=" ++ toString dcDur ++ "."],
     ["Mirrored draft_meta_info.tm_duration=" ++ toString dcDur ++ "."], true)
  else
    (dmi,
     ["draft_meta_info.tm_duration=" ++ toString dmi.tm_duration ++
       " does not mirror draft_content.duration=" ++ toString dcDur ++ "."], [], false)

/-- Model of doctor.inspect_and_fix: validate the basic CapCut invariants
and, when autofix is set, apply the minimal safe fixes (insert an empty
video track, overwrite draft_content.duration with the max span, mirror
draft_meta_info.tm_duration), in the source's sequential order as staged
above. The strict flag only raises logging verbosity in the source and
never changes behaviour; it is kept in the signature and ignored. The
_ensure_material_buckets scaffolding is the identity on the record model,
where every material array is always present. -/
def inspect_and_fix (draft_content : DraftContent) (draft_meta_info : MetaInfo)
    (draft_virtual_store : VirtualStore) (strict autofix : Bool) : Report :=
  let _ := strict
  let dc := draft_content
  let dmi := draft_meta_info
  let dvs := draft_virtual_store
  let ts := doctorTrackStage dc autofix
  let dc1 := ts.1
  let vtrack := first_track dc1.tracks ("video")
  let atrack := first_track dc1.tracks ("audio")
  let vsegIssues :=
    match vtrack with
    | some t => segMaterialIssues ("Video") t.segments dc1.materials
    | none => []
  let asegIssues :=
    match atrack with
    | some t => segMaterialIssues ("Audio") t.segments dc1.materials
    | none => []
  let importIds := importIdsList dmi
  let vmatIssues := videoMatIssues dc1.materials importIds
  let amatIssues := audioMatIssues dc1.materials importIds
  let vspan := video_span dc1
  let aspan := audio_span dc1
  let ds := doctorDurationStage dc1 autofix
  let dc2 := ds.1
  let ms := doctorTmStage dmi dc2.duration autofix
  let dmi2 := ms.1
  let trIssues :=
    match vtrack with
    | some t => transSanityIssues dc1.materials 0 t.segments
    | none => []
  let metaIssues : List String :=
    (if dmi.draft_name == "" then ["draft_meta_info.draft_name is empty."] else []) ++
    (if dmi.draft_fold_path == "" then ["draft_meta_info.draft_fold_path is empty."] else [])
  { issues := ts.2.1 ++ vsegIssues ++ asegIssues ++ vmatIssues ++ amatIssues ++
      ds.2.1 ++ ms.2.1 ++ trIssues ++ metaIssues,
    fixes := ts.2.2.1 ++ ds.2.2.1 ++ ms.2.2.1,
    patched := ts.2.2.2 || ds.2.2.2 || ms.2.2.2,
    draft_content := dc2,
    draft_meta_info := dmi2,
    draft_virtual_store := dvs,
    summary :=
      { video_span_us := vspan,
        audio_span_us := aspan,
        content_duration_us := dc2.duration,
        tm_duration_us := dmi2.tm_duration,
        num_video_segments :=
          (match first_track dc2.tracks ("video") with
           | some t => t.segments.length
           | none => 0),
        num_audio_segments :=
          (match first_track dc2.tracks ("audio") with
           | some t => t.segments.length
           | none => 0),
        num_transitions := dc2.materials.transitions.length } }

/-- True when the path starts with a separator (str.startswith of the pair
of separators in the source). -/
def startsWithSep : List Char → Bool
  | [] => false
  | c :: _ => isSep c

/-- Model of synchronizer._replace_last_component: split on both separator
styles, replace the last part, then rejoin with the dominant original
separator, keeping one leading separator (and dropping empty parts) for
absolute POSIX-like paths. -/
def replace_last_component (path_str : String) (new_name : String) : String :=
  if path_str == "" then new_name
  else
    let l := path_str.toList
    let parts0 := splitSeps l
    if parts0 = [] then new_name
    else
      let parts := parts0.dropLast ++ [new_name.toList]
      let sep : Char := dominantSep l
      if startsWithSep l then
        String.mk (sep :: joinSep sep (parts.filter (fun p => !p.isEmpty)))
      else
        String.mk (joinSep sep parts)

/-- Model of synchronizer.sync_all: force (or backfill) draft_name, and
rewrite the last folder of draft_fold_path to the project name, falling
back to project_dir and then to the bare project name when the key is
empty. The ops dictionary parameter of the source is never read inside the
function and is taken at an arbitrary type. -/
def sync_all {Ops : Type} (draft_content : DraftContent) (draft_meta_info : MetaInfo)
    (draft_virtual_store : VirtualStore) (ops : Ops) (project_name : String)
    (project_dir : Option String) (force_meta_name : Bool) :
    DraftContent × MetaInfo × VirtualStore :=
  let _ := ops
  let dmi := draft_meta_info
  let dmi1 :=
    if force_meta_name || dmi.draft_name == "" then
      { dmi with draft_name := project_name }
    else dmi
  let old_path := dmi1.draft_fold_path
  let dmi2 :=
    if old_path ≠ "" then
      { dmi1 with draft_fold_path := replace_last_component old_path project_name }
    else
      match project_dir with
      | some d =>
        if d == "" then { dmi1 with draft_fold_path := project_name }
        else { dmi1 with draft_fold_path := d }
      | none => { dmi1 with draft_fold_path := project_name }
  (draft_content, dmi2, draft_virtual_store)

/-- Empty material arrays (fresh content template). -/
def emptyMaterials : Materials := ⟨[], [], [], [], [], []⟩

/-- Fresh, empty content document. -/
def emptyContent : DraftContent := ⟨0, emptyMaterials, []⟩

/-- Fresh, empty meta-info document. -/
def emptyMeta : MetaInfo := ⟨[], "", "", 0⟩

/-- Fresh, empty virtual-store document. -/
def emptyVStore : VirtualStore := ⟨[]⟩

/-- Concrete probe environment for witness runs. -/
def testEnv : ProbeEnv :=
  ⟨fun _ => (1920, 1080, 3000000), fun _ => (800, 600), fun _ => some 7000000⟩

/-- Concrete cache resolver for witness runs (cache never hits). -/
def noResolve : String → String → String := fun _ _ => ""

/-- Oracle including every cut, picking catalog entry 0 and drawing 600ms. -/
def includeAllOracle : Nat → TransChoice := fun _ => ⟨false, 0, 600⟩

/-- A one-entry transition catalog for witness runs. -/
def fadeSpec : TransSpec :=
  ⟨some ("Fade"), some ("eff1"), none, none, none, none, none⟩

/-- Timeline dictionary carrying the one-entry catalog. -/
def fadeTimeline : Timeline := ⟨[], [], [fadeSpec], ""⟩

/-- Video segment fixture with literal identifiers. -/
def mkSeg (tag : String) (start dur : Int) (refs : List Ident) : Segment :=
  ⟨Ident.lit (tag ++ "-seg"), Ident.lit (tag ++ "-mat"), ⟨start, dur⟩, ⟨0, dur⟩, refs⟩

/-- Content document whose single video track holds two 100ms segments:
both adjacent durations are positive yet below the 200ms floor of the
transition clamp. -/
def shortSegContent : DraftContent :=
  ⟨200000, emptyMaterials,
    [⟨Ident.lit ("vt"), "video",
      [mkSeg ("a") 0 100000 [Ident.lit ("a-speed"), Ident.lit ("a-ph"), Ident.lit ("a-scm")],
       mkSeg ("b") 100000 100000 [Ident.lit ("b-speed"), Ident.lit ("b-ph"), Ident.lit ("b-scm")]]⟩]⟩

/-- Default segment used with List.getD when reading segments by index. -/
def dSeg : Segment := ⟨Ident.lit (""), Ident.lit (""), ⟨0, 0⟩, ⟨0, 0⟩, []⟩

/-- Default transition material used with List.getD. -/
def dTrans : TransitionMaterial :=
  mkTransitionMaterial defaultTransSpec (Ident.lit ("")) 0 "" ""

/-- Segments of the first video track of a track list. -/
def videoSegmentsOf (tracks : List Track) : List Segment :=
  match first_track tracks ("video") with
  | some t => t.segments
  | none => []

/-- Segments of the first video track of a content document. -/
def videoSegments (dc : DraftContent) : List Segment := videoSegmentsOf dc.tracks

/-- Tracks of type audio of a content document. -/
def audioTracks (dc : DraftContent) : List Track :=
  dc.tracks.filter (fun t => t.type == "audio")

/-- The running video-track total build_timeline accumulates in its cursor:
the sum of the per-asset durations (probed for videos, the configured
default for images) over the new clips. -/
def video_total (env : ProbeEnv) (defDurMs : Int) (imgs : List String) : Int :=
  imgs.foldl (fun c p =>
    c + (if is_video (pyAbs p) then (env.probe_video_meta (pyAbs p)).2.2
         else defDurMs * 1000)) 0

/-- Pre-existing stale import record used to refute the reset semantics. -/
def staleRecord : ImportRecord :=
  ⟨Ident.lit ("stale"), "old.jpg", "old.jpg", "old.jpg", "old.jpg",
    some 100, some 100, none, "local", 0⟩

/-- Meta document whose type-0 bucket is already populated. -/
def preMeta : MetaInfo := ⟨[⟨0, [staleRecord]⟩], "old", "old-path", 0⟩

/-- Meta document whose fold path mixes both separator styles: backslashes
dominate, so rejoining rewrites the lone forward slash. -/
def mixedMeta : MetaInfo := ⟨[], "old", "a\\b/c", 0⟩

/-- Meta document with a Windows-style uniform-separator fold path. -/
def winMeta : MetaInfo := ⟨[], "old", "C:\\Users\\old", 0⟩

theorem mem_insertAt_self {α : Type} :
    ∀ (l : List α) (n : Nat) (a : α), a ∈ insertAt l n a := by
  intro l
  induction l with
  | nil =>
    intro n a
    cases n <;> simp [insertAt]
  | cons y ys ih =>
    intro n a
    cases n with
    | zero => simp [insertAt]
    | succ n =>
      simp only [insertAt, List.mem_cons]
      exact Or.inr (ih n a)

theorem applyTransLoop_bounds (catalog : List TransSpec) (cache_root : String)
    (resolve : String → String → String) (oracle : Nat → TransChoice) :
    ∀ (segs : List Segment) (i g : Nat),
      ∀ t ∈ (applyTransLoop catalog cache_root resolve oracle i segs g).2.1,
        ∃ j, j + 1 < segs.length ∧
          t.id ∈ (((applyTransLoop catalog cache_root resolve oracle i segs g).1.getD j
            dSeg)).extra_material_refs ∧
          200000 ≤ t.duration ∧
          (0 < (segs.getD j dSeg).target_timerange.duration →
           0 < (segs.getD (j + 1) dSeg).target_timerange.duration →
           t.duration ≤ max 200000
             (min (segs.getD j dSeg).target_timerange.duration
               ((segs.getD (j + 1) dSeg).target_timerange.duration))) := by
  intro segs
  induction segs with
  | nil => intro i g t ht; simp [applyTransLoop] at ht
  | cons s0 rest ih =>
    cases rest with
    | nil => intro i g t ht; simp [applyTransLoop] at ht
    | cons s1 rest2 =>
      intro i g t ht
      simp only [applyTransLoop] at ht ⊢
      cases hskip : (oracle i).skip with
      | true =>
        simp only [hskip, if_true] at ht ⊢
        obtain ⟨j, hj, htie, hge, hub⟩ := ih (i + 1) g t ht
        refine ⟨j + 1, by simpa using Nat.succ_lt_succ hj, ?_, hge, ?_⟩
        · simpa using htie
        · simpa using hub
      | false =>
        simp only [hskip, Bool.false_eq_true, if_false, List.mem_cons] at ht ⊢
        cases ht with
        | inl heq =>
          refine ⟨0, by simp, ?_, ?_, ?_⟩
          · subst heq
            simp only [List.getD_cons_zero, mkTransitionMaterial]
            by_cases hmem : Ident.gen g ∈ s0.extra_material_refs
            · simp only [if_pos hmem]
              exact hmem
            · simp only [if_neg hmem]
              exact mem_insertAt_self _ _ _
          · subst heq
            simp [mkTransitionMaterial]
          · intro h1 h2
            subst heq
            simp only [List.getD_cons_zero, List.getD_cons_succ] at h1 h2 ⊢
            simp only [mkTransitionMaterial, pyOrInt, beq_iff_eq]
            rw [if_neg (by omega), if_neg (by omega)]
            omega
        | inr hmem =>
          obtain ⟨j, hj, htie, hge, hub⟩ := ih (i + 1) (g + 1) t hmem
          refine ⟨j + 1, by simpa using Nat.succ_lt_succ hj, ?_, hge, ?_⟩
          · simpa using htie
          · simpa using hub

/-- C1 counterexample: with two adjacent 100000-microsecond segments (both
positive), the inserted transition's duration is clamped up to 200000 and
exceeds min(d1, d2) = 100000, so the claimed bound duration ≤ min(d1, d2)
fails on the code. -/
theorem transition_duration_bound_cex :
    (0 : Int) < ((videoSegments shortSegContent).getD 0 dSeg).target_timerange.duration ∧
    (0 : Int) < ((videoSegments shortSegContent).getD 1 dSeg).target_timerange.duration ∧
    ((apply_transitions shortSegContent fadeTimeline [] noResolve includeAllOracle
        0).1.materials.transitions.map (fun t => t.duration) = [200000]) ∧
    ¬ (∀ t ∈ (apply_transitions shortSegContent fadeTimeline [] noResolve includeAllOracle
          0).1.materials.transitions,
        t.duration ≤ min ((videoSegments shortSegContent).getD 0 dSeg).target_timerange.duration
          ((videoSegments shortSegContent).getD 1 dSeg).target_timerange.duration) := by
  decide

theorem first_track_append (ts ts' : List Track) (kind : String) :
    first_track (ts ++ ts') kind = (first_track ts kind).or (first_track ts' kind) := by
  simp [first_track, List.find?_append]

theorem first_track_updateFirstTrack_same (f : Track → Track) (kind : String)
    (hf : ∀ t, (f t).type = t.type) :
    ∀ ts : List Track,
      first_track (updateFirstTrack (fun t => t.type == kind) f ts) kind =
        (first_track ts kind).map f := by
  intro ts
  induction ts with
  | nil => simp [first_track, updateFirstTrack]
  | cons t rest ih =>
    cases h : (t.type == kind) with
    | true =>
      simp [updateFirstTrack, first_track, h, hf t]
    | false =>
      simp only [updateFirstTrack, h, Bool.false_eq_true, if_false]
      simp only [first_track, List.find?_cons, h] at ih ⊢
      exact ih

theorem first_track_updateFirstTrack_other (f : Track → Track) (kind kind' : String)
    (hne : kind ≠ kind') (hf : ∀ t, (f t).type = t.type) :
    ∀ ts : List Track,
      first_track (updateFirstTrack (fun t => t.type == kind') f ts) kind =
        first_track ts kind := by
  intro ts
  induction ts with
  | nil => simp [updateFirstTrack]
  | cons t rest ih =>
    cases h : (t.type == kind') with
    | true =>
      have ht : t.type = kind' := by simpa using h
      have hfk : ((f t).type == kind) = false := by
        simp [hf t, ht, (Ne.symm hne)]
      have htk : (t.type == kind) = false := by
        simp [ht, (Ne.symm hne)]
      simp [updateFirstTrack, first_track, h, hfk, htk]
    | false =>
      simp only [updateFirstTrack, h, Bool.false_eq_true, if_false]
      simp only [first_track, List.find?_cons] at ih ⊢
      cases hk : (t.type == kind) with
      | true => simp [hk]
      | false => simpa [hk] using ih

theorem updateFirstTrack_append_of_none (p : Track → Bool) (f : Track → Track)
    (ts ts' : List Track) (h : ∀ t ∈ ts, ¬ p t = true) :
    updateFirstTrack p f (ts ++ ts') = ts ++ updateFirstTrack p f ts' := by
  induction ts with
  | nil => simp
  | cons t rest ih =>
    have hpt : p t = false := by
      have := h t (by simp)
      simpa using this
    simp only [List.cons_append, updateFirstTrack, hpt, Bool.false_eq_true, if_false,
      List.cons.injEq, true_and]
    exact ih (fun t ht => h t (by simp [ht]))

theorem buildClips_chain (env : ProbeEnv) (entries : List ImportMapEntry) (defDurMs : Int) :
    ∀ (imgs : List String) (sids pids mids : List Ident) (cursor : Int) (g : Nat),
      (∀ s ∈ (buildClips env entries defDurMs imgs sids pids mids cursor g).segments,
        s.source_timerange.start = 0) ∧
      (0 < (buildClips env entries defDurMs imgs sids pids mids cursor g).segments.length →
        ((buildClips env entries defDurMs imgs sids pids mids cursor g).segments.getD 0
          dSeg).target_timerange.start = cursor) ∧
      (∀ i, i + 1 < (buildClips env entries defDurMs imgs sids pids mids cursor g).segments.length →
        ((buildClips env entries defDurMs imgs sids pids mids cursor g).segments.getD (i + 1)
            dSeg).target_timerange.start =
          ((buildClips env entries defDurMs imgs sids pids mids cursor g).segments.getD i
              dSeg).target_timerange.start +
            ((buildClips env entries defDurMs imgs sids pids mids cursor g).segments.getD i
                dSeg).target_timerange.duration) := by
  intro imgs
  induction imgs with
  | nil => intro sids pids mids cursor g; simp [buildClips]
  | cons p ps ih =>
    intro sids pids mids cursor g
    cases sids with
    | nil => simp [buildClips]
    | cons sid sids' =>
      cases pids with
      | nil => simp [buildClips]
      | cons pid pids' =>
        cases mids with
        | nil => simp [buildClips]
        | cons mid mids' =>
          cases hvid : is_video (pyAbs p) with
          | true =>
            simp only [buildClips, hvid, if_true]
            obtain ⟨ihsrc, ihhead, ihchain⟩ :=
              ih sids' pids' mids' (cursor + (env.probe_video_meta (pyAbs p)).2.2) (g + 2)
            refine ⟨?_, ?_, ?_⟩
            · intro s hs
              rcases List.mem_cons.mp hs with h | h
              · subst h; rfl
              · exact ihsrc s h
            · intro _
              rfl
            · intro i hi
              cases i with
              | zero =>
                simp only [List.getD_cons_succ, List.getD_cons_zero]
                have hlen : 0 <
                    (buildClips env entries defDurMs ps sids' pids' mids'
                      (cursor + (env.probe_video_meta (pyAbs p)).2.2) (g + 2)).segments.length := by
                  simpa using hi
                simpa using ihhead hlen
              | succ i' =>
                simp only [List.getD_cons_succ]
                exact ihchain i' (by simpa using hi)
          | false =>
            simp only [buildClips, hvid, Bool.false_eq_true, if_false]
            obtain ⟨ihsrc, ihhead, ihchain⟩ :=
              ih sids' pids' mids' (cursor + defDurMs * 1000) (g + 2)
            refine ⟨?_, ?_, ?_⟩
            · intro s hs
              rcases List.mem_cons.mp hs with h | h
              · subst h; rfl
              · exact ihsrc s h
            · intro _
              rfl
            · intro i hi
              cases i with
              | zero =>
                simp only [List.getD_cons_succ, List.getD_cons_zero]
                have hlen : 0 <
                    (buildClips env entries defDurMs ps sids' pids' mids'
                      (cursor + defDurMs * 1000) (g + 2)).segments.length := by
                  simpa using hi
                simpa using ihhead hlen
              | succ i' =>
                simp only [List.getD_cons_succ]
                exact ihchain i' (by simpa using hi)

theorem first_track_attachVideoSegs (ts : List Track) (ns : List Segment) :
    first_track (attachVideoSegs ts ns) ("video") =
      (first_track ts ("video")).map (fun t => { t with segments := t.segments ++ ns }) := by
  unfold attachVideoSegs
  exact first_track_updateFirstTrack_same
    (fun t => { t with segments := t.segments ++ ns }) ("video") (fun t => rfl) ts

theorem first_track_attachAudioSeg_video (ts : List Track) (s : Segment) :
    first_track (attachAudioSeg ts s) ("video") = first_track ts ("video") := by
  unfold attachAudioSeg
  exact first_track_updateFirstTrack_other
    (fun t => { t with segments := t.segments ++ [s] }) ("video") ("audio")
    (by decide) (fun t => rfl) ts

theorem first_track_ensureAudioTrack_video (ts : List Track) (g : Nat) :
    first_track (ensureAudioTrack ts g).1 ("video") = first_track ts ("video") := by
  unfold ensureAudioTrack
  cases h : first_track ts ("audio") with
  | some t => rfl
  | none =>
    simp only [first_track_append]
    have hsing : first_track
        [({ id := Ident.gen g, type := "audio", segments := [] } : Track)] ("video") = none := by
      simp [first_track, List.find?]
    rw [hsing]
    cases first_track ts ("video") <;> rfl

theorem first_track_ensureVideoTrack (ts : List Track) (g : Nat) :
    first_track (ensureVideoTrack ts g).1 ("video") =
      some (match first_track ts ("video") with
            | some t => t
            | none => ({ id := Ident.gen g, type := "video", segments := [] } : Track)) := by
  unfold ensureVideoTrack
  cases h : first_track ts ("video") with
  | some t => simp [h]
  | none =>
    simp only [h, first_track_append]
    simp [first_track, List.find?]

theorem build_timeline_videoSegments (dc : DraftContent) (images sounds : List String)
    (defDurMs : Int) (idmaps : Option IdMaps) (env : ProbeEnv) (g : Nat) :
    ∃ g1,
      videoSegments (build_timeline dc images sounds defDurMs idmaps env g).1 =
        videoSegments dc ++
          (buildClips env (idmapEntries idmaps) defDurMs images
            (create_accessory_materials images.length g1).speed_ids
            (create_accessory_materials images.length g1).placeholder_ids
            (create_accessory_materials images.length g1).sound_mapping_ids
            0 (create_accessory_materials images.length g1).gen).segments := by
  refine ⟨(ensureVideoTrack dc.tracks g).2, ?_⟩
  cases sounds with
  | nil =>
    simp only [build_timeline, videoSegments, videoSegmentsOf,
      first_track_attachVideoSegs, first_track_ensureVideoTrack]
    cases h : first_track dc.tracks ("video") with
    | some t => simp
    | none => simp
  | cons a rest =>
    simp only [build_timeline, videoSegments, videoSegmentsOf,
      first_track_attachAudioSeg_video, first_track_ensureAudioTrack_video,
      first_track_attachVideoSegs, first_track_ensureVideoTrack]
    cases h : first_track dc.tracks ("video") with
    | some t => simp
    | none => simp

/-- C4: starting from a content document whose video track is empty (or
absent), the video track build_timeline produces is sequentially
assembled: the first segment starts at 0, each later segment starts where
the previous one ends, and every segment's source_timerange.start is 0. -/
theorem build_timeline_monotonic :
    ∀ (dc : DraftContent) (images sounds : List String) (defDurMs : Int)
      (idmaps : Option IdMaps) (env : ProbeEnv) (g : Nat),
      videoSegments dc = [] →
      (0 < (videoSegments (build_timeline dc images sounds defDurMs idmaps env g).1).length →
        ((videoSegments (build_timeline dc images sounds defDurMs idmaps env g).1).getD 0
          dSeg).target_timerange.start = 0) ∧
      (∀ i, i + 1 < (videoSegments (build_timeline dc images sounds defDurMs idmaps env g).1).length →
        ((videoSegments (build_timeline dc images sounds defDurMs idmaps env g).1).getD (i + 1)
            dSeg).target_timerange.start =
          ((videoSegments (build_timeline dc images sounds defDurMs idmaps env g).1).getD i
              dSeg).target_timerange.start +
            ((videoSegments (build_timeline dc images sounds defDurMs idmaps env g).1).getD i
                dSeg).target_timerange.duration) ∧
      (∀ s ∈ videoSegments (build_timeline dc images sounds defDurMs idmaps env g).1,
        s.source_timerange.start = 0) := by
  intro dc images sounds defDurMs idmaps env g hempty
  obtain ⟨g1, hchar⟩ := build_timeline_videoSegments dc images sounds defDurMs idmaps env g
  rw [hempty, List.nil_append] at hchar
  rw [hchar]
  obtain ⟨hsrc, hhead, hchain⟩ :=
    buildClips_chain env (idmapEntries idmaps) defDurMs images
      (create_accessory_materials images.length g1).speed_ids
      (create_accessory_materials images.length g1).placeholder_ids
      (create_accessory_materials images.length g1).sound_mapping_ids
      0 (create_accessory_materials images.length g1).gen
  exact ⟨hhead, hchain, hsrc⟩

/-- C4 witness: the sequential-assembly property on a concrete
image/video/audio run from the empty content document. -/
theorem build_timeline_monotonic_witness :
    videoSegments emptyContent = [] ∧
    ((0 < (videoSegments (build_timeline emptyContent ["a.jpg", "b.mp4"] ["c.mp3"] 5000
          none testEnv 0).1).length →
      ((videoSegments (build_timeline emptyContent ["a.jpg", "b.mp4"] ["c.mp3"] 5000
          none testEnv 0).1).getD 0 dSeg).target_timerange.start = 0) ∧
    (∀ i, i + 1 < (videoSegments (build_timeline emptyContent ["a.jpg", "b.mp4"] ["c.mp3"] 5000
          none testEnv 0).1).length →
      ((videoSegments (build_timeline emptyContent ["a.jpg", "b.mp4"] ["c.mp3"] 5000
          none testEnv 0).1).getD (i + 1) dSeg).target_timerange.start =
        ((videoSegments (build_timeline emptyContent ["a.jpg", "b.mp4"] ["c.mp3"] 5000
            none testEnv 0).1).getD i dSeg).target_timerange.start +
          ((videoSegments (build_timeline emptyContent ["a.jpg", "b.mp4"] ["c.mp3"] 5000
              none testEnv 0).1).getD i dSeg).target_timerange.duration) ∧
    (∀ s ∈ videoSegments (build_timeline emptyContent ["a.jpg", "b.mp4"] ["c.mp3"] 5000
        none testEnv 0).1, s.source_timerange.start = 0)) :=
  ⟨rfl, build_timeline_monotonic emptyContent ["a.jpg", "b.mp4"] ["c.mp3"] 5000
    none testEnv 0 rfl⟩

theorem find?_appendMetaBucket_ensure (t : Nat) (items : List ImportRecord) :
    ∀ bs : List MetaBucket,
      (appendMetaBucket (ensureMetaBucket bs t) t items).find? (fun b => b.type == t) =
        some ⟨t, (match bs.find? (fun b => b.type == t) with
                  | some b => b.value
                  | none => []) ++ items⟩ := by
  intro bs
  induction bs with
  | nil => simp [ensureMetaBucket, appendMetaBucket, List.find?]
  | cons b rest ih =>
    cases hbt : (b.type == t) with
    | true =>
      have hbt' : b.type = t := by simpa using hbt
      have hens : ensureMetaBucket (b :: rest) t = b :: rest := by
        simp [ensureMetaBucket, List.any_cons, hbt]
      rw [hens]
      have happ : appendMetaBucket (b :: rest) t items =
          ⟨b.type, b.value ++ items⟩ :: rest := by
        simp [appendMetaBucket, hbt]
      rw [happ]
      simp [List.find?_cons, hbt, hbt']
    | false =>
      have happ : ∀ bs', appendMetaBucket (b :: bs') t items =
          b :: appendMetaBucket bs' t items := by
        intro bs'
        simp [appendMetaBucket, hbt]
      cases hrest : rest.any (fun x => x.type == t) with
      | true =>
        have hens : ensureMetaBucket (b :: rest) t = b :: rest := by
          simp [ensureMetaBucket, List.any_cons, hbt, hrest]
        have hens' : ensureMetaBucket rest t = rest := by
          simp [ensureMetaBucket, hrest]
        rw [hens, happ]
        rw [hens'] at ih
        simp only [List.find?_cons, hbt]
        exact ih
      | false =>
        have hens : ensureMetaBucket (b :: rest) t =
            b :: (rest ++ [⟨t, []⟩]) := by
          simp [ensureMetaBucket, List.any_cons, hbt, hrest]
        have hens' : ensureMetaBucket rest t = rest ++ [⟨t, []⟩] := by
          simp [ensureMetaBucket, hrest]
        rw [hens, happ]
        rw [hens'] at ih
        simp only [List.find?_cons, hbt]
        exact ih

theorem find?_appendVBucket_ensure (t : Nat) (items : List VChild) :
    ∀ bs : List VBucket,
      (appendVBucket (ensureVBucket bs t) t items).find? (fun b => b.type == t) =
        some ⟨t, (match bs.find? (fun b => b.type == t) with
                  | some b => b.value
                  | none => []) ++ items⟩ := by
  intro bs
  induction bs with
  | nil => simp [ensureVBucket, appendVBucket, List.find?]
  | cons b rest ih =>
    cases hbt : (b.type == t) with
    | true =>
      have hbt' : b.type = t := by simpa using hbt
      have hens : ensureVBucket (b :: rest) t = b :: rest := by
        simp [ensureVBucket, List.any_cons, hbt]
      rw [hens]
      have happ : appendVBucket (b :: rest) t items =
          ⟨b.type, b.value ++ items⟩ :: rest := by
        simp [appendVBucket, hbt]
      rw [happ]
      simp [List.find?_cons, hbt, hbt']
    | false =>
      have happ : ∀ bs', appendVBucket (b :: bs') t items =
          b :: appendVBucket bs' t items := by
        intro bs'
        simp [appendVBucket, hbt]
      cases hrest : rest.any (fun x => x.type == t) with
      | true =>
        have hens : ensureVBucket (b :: rest) t = b :: rest := by
          simp [ensureVBucket, List.any_cons, hbt, hrest]
        have hens' : ensureVBucket rest t = rest := by
          simp [ensureVBucket, hrest]
        rw [hens, happ]
        rw [hens'] at ih
        simp only [List.find?_cons, hbt]
        exact ih
      | false =>
        have hens : ensureVBucket (b :: rest) t =
            b :: (rest ++ [⟨t, []⟩]) := by
          simp [ensureVBucket, List.any_cons, hbt, hrest]
        have hens' : ensureVBucket rest t = rest ++ [⟨t, []⟩] := by
          simp [ensureVBucket, hrest]
        rw [hens, happ]
        rw [hens'] at ih
        simp only [List.find?_cons, hbt]
        exact ih

theorem importPayload_id (env : ProbeEnv) (p : String) (i : Ident) :
    (importPayload env p i).id = i := by
  unfold importPayload
  split <;> rfl

theorem importPayload_path (env : ProbeEnv) (p : String) (i : Ident) :
    (importPayload env p i).path = p := by
  unfold importPayload
  split <;> rfl

theorem importImages_gen (env : ProbeEnv) :
    ∀ (imgs : List String) (g : Nat), (importImages env imgs g).gen = g + imgs.length := by
  intro imgs
  induction imgs with
  | nil => intro g; simp [importImages]
  | cons p ps ih =>
    intro g
    simp only [importImages]
    rw [ih (g + 1)]
    simp [List.length_cons]
    omega

theorem importImages_ids (env : ProbeEnv) :
    ∀ (imgs : List String) (g : Nat),
      (importImages env imgs g).records.map (fun r => r.id) =
        (List.range' g imgs.length).map Ident.gen := by
  intro imgs
  induction imgs with
  | nil => intro g; simp [importImages]
  | cons p ps ih =>
    intro g
    simp only [importImages, List.map_cons, importPayload_id, List.length_cons,
      List.range', List.map_cons]
    rw [ih (g + 1)]

theorem importImages_paths (env : ProbeEnv) :
    ∀ (imgs : List String) (g : Nat),
      (importImages env imgs g).records.map (fun r => r.path) = imgs.map pyAbs := by
  intro imgs
  induction imgs with
  | nil => intro g; simp [importImages]
  | cons p ps ih =>
    intro g
    simp only [importImages, List.map_cons, importPayload_path]
    rw [ih (g + 1)]

theorem importImages_children_ids (env : ProbeEnv) :
    ∀ (imgs : List String) (g : Nat),
      (importImages env imgs g).children.map (fun c => c.child_id) =
        (importImages env imgs g).records.map (fun r => r.id) := by
  intro imgs
  induction imgs with
  | nil => intro g; simp [importImages]
  | cons p ps ih =>
    intro g
    simp only [importImages, List.map_cons, importPayload_id]
    rw [ih (g + 1)]

theorem importImages_entries_ids (env : ProbeEnv) :
    ∀ (imgs : List String) (g : Nat),
      (importImages env imgs g).entries.map (fun e => e.import_id) =
        (importImages env imgs g).records.map (fun r => r.id) := by
  intro imgs
  induction imgs with
  | nil => intro g; simp [importImages]
  | cons p ps ih =>
    intro g
    simp only [importImages, List.map_cons, importPayload_id]
    rw [ih (g + 1)]

theorem importImages_entries_paths (env : ProbeEnv) :
    ∀ (imgs : List String) (g : Nat),
      (importImages env imgs g).entries.map (fun e => e.path) = imgs.map pyAbs := by
  intro imgs
  induction imgs with
  | nil => intro g; simp [importImages]
  | cons p ps ih =>
    intro g
    simp only [importImages, List.map_cons]
    rw [ih (g + 1)]

theorem add_imports_bucket0 (dmi : MetaInfo) (dvs : VirtualStore)
    (images sounds : List String) (env : ProbeEnv) (g : Nat) :
    metaBucketValue (add_imports dmi dvs images sounds env g).1 0 =
      metaBucketValue dmi 0 ++
        ((importImages env images g).records ++
          (importSound env sounds (importImages env images g).gen).records) := by
  unfold add_imports metaBucketValue
  simp only
  rw [find?_appendMetaBucket_ensure]

theorem add_imports_vbucket1 (dmi : MetaInfo) (dvs : VirtualStore)
    (images sounds : List String) (env : ProbeEnv) (g : Nat) :
    vBucketValue (add_imports dmi dvs images sounds env g).2.1 1 =
      vBucketValue dvs 1 ++
        ((importImages env images g).children ++
          (importSound env sounds (importImages env images g).gen).children) := by
  unfold add_imports vBucketValue
  simp only
  rw [find?_appendVBucket_ensure]

theorem importSound_paths (env : ProbeEnv) (sounds : List String) (g : Nat) :
    (importSound env sounds g).records.map (fun r => r.path) = (sounds.take 1).map pyAbs := by
  cases sounds <;> simp [importSound]

theorem importSound_ids (env : ProbeEnv) (sounds : List String) (g : Nat) :
    (importSound env sounds g).records.map (fun r => r.id) =
      (sounds.take 1).map (fun _ => Ident.gen g) := by
  cases sounds <;> simp [importSound]

theorem importSound_children_ids (env : ProbeEnv) (sounds : List String) (g : Nat) :
    (importSound env sounds g).children.map (fun c => c.child_id) =
      (importSound env sounds g).records.map (fun r => r.id) := by
  cases sounds <;> simp [importSound]

theorem importSound_entries_ids (env : ProbeEnv) (sounds : List String) (g : Nat) :
    (importSound env sounds g).entries.map (fun e => e.import_id) =
      (importSound env sounds g).records.map (fun r => r.id) := by
  cases sounds <;> simp [importSound]

theorem importSound_entries_paths (env : ProbeEnv) (sounds : List String) (g : Nat) :
    (importSound env sounds g).entries.map (fun e => e.path) = (sounds.take 1).map pyAbs := by
  cases sounds <;> simp [importSound]

theorem identGen_injective : Function.Injective Ident.gen := by
  intro a b h
  injection h

theorem newImportIds_nodup (env : ProbeEnv) (images sounds : List String) (g : Nat) :
    (((importImages env images g).records ++
      (importSound env sounds (importImages env images g).gen).records).map
        (fun r => r.id)).Nodup := by
  rw [List.map_append, importImages_ids, importImages_gen, importSound_ids]
  cases sounds with
  | nil =>
    simp only [List.take_nil, List.map_nil, List.append_nil]
    exact List.Nodup.map identGen_injective (List.nodup_range' _ _)
  | cons a rest =>
    simp only [List.take_succ_cons, List.take_nil, List.map_cons, List.map_nil]
    rw [List.nodup_append]
    refine ⟨List.Nodup.map identGen_injective (List.nodup_range' _ _),
      List.nodup_singleton _, ?_⟩
    intro x hx hx'
    simp only [List.take_zero, List.map_nil, List.mem_cons, List.not_mem_nil,
      or_false] at hx'
    subst hx'
    obtain ⟨m, hm, hid⟩ := List.mem_map.mp hx
    have := identGen_injective hid
    rw [List.mem_range'_1] at hm
    omega

/-- C3 (amended): add_imports does not clear the type-0 import bucket;
after any pre-existing entries it appends exactly one import record per
image/video asset in input order, plus one record for the first sound
asset when the sound list is non-empty, each with a freshly minted,
pairwise-distinct identifier. -/
theorem add_imports_appends_bucket0 :
    ∀ (dmi : MetaInfo) (dvs : VirtualStore) (images sounds : List String)
      (env : ProbeEnv) (g : Nat),
      metaBucketValue (add_imports dmi dvs images sounds env g).1 0 =
        metaBucketValue dmi 0 ++
          ((importImages env images g).records ++
            (importSound env sounds (importImages env images g).gen).records) ∧
      (((importImages env images g).records ++
        (importSound env sounds (importImages env images g).gen).records).map
          (fun r => r.path)) = (images ++ sounds.take 1).map pyAbs ∧
      (((importImages env images g).records ++
        (importSound env sounds (importImages env images g).gen).records).map
          (fun r => r.id)).Nodup ∧
      ∀ r ∈ (importImages env images g).records ++
          (importSound env sounds (importImages env images g).gen).records,
        ∃ n, g ≤ n ∧ r.id = Ident.gen n := by
  intro dmi dvs images sounds env g
  refine ⟨add_imports_bucket0 dmi dvs images sounds env g, ?_, ?_, ?_⟩
  · rw [List.map_append, importImages_paths, importSound_paths, List.map_append]
  · exact newImportIds_nodup env images sounds g
  · intro r hr
    have hid : r.id ∈ (((importImages env images g).records ++
        (importSound env sounds (importImages env images g).gen).records).map
          (fun x => x.id)) := List.mem_map_of_mem _ hr
    rw [List.map_append, importImages_ids, importImages_gen, importSound_ids] at hid
    rcases List.mem_append.mp hid with h | h
    · obtain ⟨m, hm, hident⟩ := List.mem_map.mp h
      rw [List.mem_range'] at hm
      exact ⟨m, by omega, hident.symm⟩
    · obtain ⟨s, _, hident⟩ := List.mem_map.mp h
      exact ⟨g + images.length, by omega, hident.symm⟩

/-- C3 counterexample: with a non-empty pre-existing type-0 bucket,
add_imports keeps the stale record in front of the freshly appended one,
so the bucket is not cleared and does not contain records only for this
run's single asset. -/
theorem add_imports_reset_cex :
    ((metaBucketValue (add_imports preMeta emptyVStore ["a.jpg"] [] testEnv 0).1 0).map
      (fun r => r.id) = [Ident.lit ("stale"), Ident.gen 0]) ∧
    ¬ ((metaBucketValue (add_imports preMeta emptyVStore ["a.jpg"] [] testEnv 0).1 0).length =
        (["a.jpg"] : List String).length) := by
  decide

theorem create_accessory_materials_lengths :
    ∀ n g, (create_accessory_materials n g).speed_ids.length = n ∧
      (create_accessory_materials n g).placeholder_ids.length = n ∧
      (create_accessory_materials n g).sound_mapping_ids.length = n := by
  intro n
  induction n with
  | zero => intro g; simp [create_accessory_materials]
  | succ n ih =>
    intro g
    obtain ⟨h1, h2, h3⟩ := ih ((uuid_upper ((uuid_upper ((uuid_upper g).2)).2)).2)
    simp [create_accessory_materials, h1, h2, h3]

theorem buildClips_locals (env : ProbeEnv) (entries : List ImportMapEntry) (defDurMs : Int) :
    ∀ (imgs : List String) (sids pids mids : List Ident) (cursor : Int) (g : Nat),
      sids.length = imgs.length → pids.length = imgs.length → mids.length = imgs.length →
      (buildClips env entries defDurMs imgs sids pids mids cursor g).videos.map
          (fun v => v.local_material_id) =
        imgs.map (fun p => impLookup entries (pyAbs p)) := by
  intro imgs
  induction imgs with
  | nil =>
    intro sids pids mids cursor g h1 h2 h3
    rw [List.length_nil, List.length_eq_zero] at h1 h2 h3
    subst h1; subst h2; subst h3
    simp [buildClips]
  | cons p ps ih =>
    intro sids pids mids cursor g h1 h2 h3
    cases sids with
    | nil => simp at h1
    | cons sid sids' =>
      cases pids with
      | nil => simp at h2
      | cons pid pids' =>
        cases mids with
        | nil => simp at h3
        | cons mid mids' =>
          simp only [List.length_cons, Nat.succ.injEq] at h1 h2 h3
          cases hvid : is_video (pyAbs p) with
          | true =>
            simp only [buildClips, hvid, if_true, List.map_cons]
            rw [ih sids' pids' mids' _ _ h1 h2 h3]
          | false =>
            simp only [buildClips, hvid, Bool.false_eq_true, if_false, List.map_cons]
            rw [ih sids' pids' mids' _ _ h1 h2 h3]

theorem build_timeline_videos (dc : DraftContent) (images sounds : List String)
    (defDurMs : Int) (idmaps : Option IdMaps) (env : ProbeEnv) (g : Nat) :
    ∃ g1,
      (build_timeline dc images sounds defDurMs idmaps env g).1.materials.videos =
        dc.materials.videos ++
          (buildClips env (idmapEntries idmaps) defDurMs images
            (create_accessory_materials images.length g1).speed_ids
            (create_accessory_materials images.length g1).placeholder_ids
            (create_accessory_materials images.length g1).sound_mapping_ids
            0 (create_accessory_materials images.length g1).gen).videos := by
  refine ⟨(ensureVideoTrack dc.tracks g).2, ?_⟩
  cases sounds with
  | nil => rfl
  | cons a rest => rfl

theorem build_timeline_audios (dc : DraftContent) (images sounds : List String)
    (defDurMs : Int) (idmaps : Option IdMaps) (env : ProbeEnv) (g : Nat) :
    (sounds = [] ∧
      (build_timeline dc images sounds defDurMs idmaps env g).1.materials.audios =
        dc.materials.audios) ∨
    (∃ a rest aid dur, sounds = a :: rest ∧
      (build_timeline dc images sounds defDurMs idmaps env g).1.materials.audios =
        dc.materials.audios ++
          [⟨aid, impLookup (idmapEntries idmaps) (pyAbs a), pyAbs a,
            "extract_music", fname (pyAbs a), dur⟩]) := by
  cases sounds with
  | nil => exact Or.inl ⟨rfl, rfl⟩
  | cons a rest => exact Or.inr ⟨a, rest, _, _, rfl, rfl⟩

theorem find?_path_unique :
    ∀ (l : List ImportMapEntry) (e : ImportMapEntry),
      e ∈ l → (l.map (fun x => x.path)).Nodup →
      l.find? (fun x => x.path == e.path) = some e := by
  intro l
  induction l with
  | nil => intro e hmem _; simp at hmem
  | cons h t ih =>
    intro e hmem hnd
    rw [List.map_cons, List.nodup_cons] at hnd
    rcases List.mem_cons.mp hmem with rfl | hmem'
    · simp [List.find?_cons]
    · have hne : (h.path == e.path) = false := by
        rw [beq_eq_false_iff_ne]
        intro hp
        exact hnd.1 (hp ▸ List.mem_map_of_mem (fun x => x.path) hmem')
      rw [List.find?_cons, hne]
      exact ih e hmem' hnd.2

theorem impLookup_unique (l : List ImportMapEntry) (e : ImportMapEntry)
    (hmem : e ∈ l) (hnd : (l.map (fun x => x.path)).Nodup) :
    impLookup l e.path = some e.import_id := by
  unfold impLookup
  rw [find?_path_unique l.reverse e (List.mem_reverse.mpr hmem)
    (by rw [List.map_reverse]; exact List.nodup_reverse.mpr hnd)]

theorem map_impLookup_entries (l1 l2 : List ImportMapEntry) (imgs : List String)
    (hp : l1.map (fun e => e.path) = imgs.map pyAbs)
    (hnd : ((l1 ++ l2).map (fun e => e.path)).Nodup) :
    imgs.map (fun p => impLookup (l1 ++ l2) (pyAbs p)) =
      (l1.map (fun e => e.import_id)).map some := by
  calc imgs.map (fun p => impLookup (l1 ++ l2) (pyAbs p))
      = (imgs.map pyAbs).map (fun q => impLookup (l1 ++ l2) q) := by rw [List.map_map]; rfl
    _ = (l1.map (fun e => e.path)).map (fun q => impLookup (l1 ++ l2) q) := by rw [hp]
    _ = l1.map (fun e => impLookup (l1 ++ l2) e.path) := by rw [List.map_map]; rfl
    _ = l1.map (fun e => some e.import_id) :=
        List.map_congr_left (fun e he => impLookup_unique _ e (List.mem_append_left _ he) hnd)
    _ = (l1.map (fun e => e.import_id)).map some := by rw [List.map_map]; rfl

theorem filterMap_id_map_some {α : Type} (l : List α) : (l.map some).filterMap id = l := by
  induction l with
  | nil => rfl
  | cons a t ih => simp [List.filterMap_cons, ih]

theorem pipeline_import_ids (images sounds : List String) (env : ProbeEnv) (g : Nat) :
    (metaBucketValue (add_imports emptyMeta emptyVStore images sounds env g).1 0).map
        (fun r => r.id) =
      (importImages env images g).records.map (fun r => r.id) ++
        (importSound env sounds (importImages env images g).gen).records.map
          (fun r => r.id) := by
  rw [add_imports_bucket0]
  simp [metaBucketValue, emptyMeta, List.map_append]

theorem pipeline_child_ids (images sounds : List String) (env : ProbeEnv) (g : Nat) :
    (vBucketValue (add_imports emptyMeta emptyVStore images sounds env g).2.1 1).map
        (fun c => c.child_id) =
      (importImages env images g).records.map (fun r => r.id) ++
        (importSound env sounds (importImages env images g).gen).records.map
          (fun r => r.id) := by
  rw [add_imports_vbucket1]
  simp [vBucketValue, emptyVStore, List.map_append,
    importImages_children_ids, importSound_children_ids]

theorem pipeline_local_ids (images sounds : List String) (defDurMs : Int)
    (env : ProbeEnv) (g : Nat)
    (hnd : ((images ++ sounds.take 1).map pyAbs).Nodup) :
    (((build_timeline emptyContent images sounds defDurMs
        (some (add_imports emptyMeta emptyVStore images sounds env g).2.2.1) env
        (add_imports emptyMeta emptyVStore images sounds env g).2.2.2).1.materials.videos.map
          (fun v => v.local_material_id)) ++
      ((build_timeline emptyContent images sounds defDurMs
        (some (add_imports emptyMeta emptyVStore images sounds env g).2.2.1) env
        (add_imports emptyMeta emptyVStore images sounds env g).2.2.2).1.materials.audios.map
          (fun a => a.local_material_id))).filterMap id =
      (importImages env images g).records.map (fun r => r.id) ++
        (importSound env sounds (importImages env images g).gen).records.map
          (fun r => r.id) := by
  have hE : idmapEntries (some (add_imports emptyMeta emptyVStore images sounds env g).2.2.1) =
      (importImages env images g).entries ++
        (importSound env sounds (importImages env images g).gen).entries := rfl
  obtain ⟨g1, hvid⟩ := build_timeline_videos emptyContent images sounds defDurMs
    (some (add_imports emptyMeta emptyVStore images sounds env g).2.2.1) env
    (add_imports emptyMeta emptyVStore images sounds env g).2.2.2
  obtain ⟨hl1, hl2, hl3⟩ := create_accessory_materials_lengths images.length g1
  have hpathsnd : ((((importImages env images g).entries ++
      (importSound env sounds (importImages env images g).gen).entries)).map
        (fun e => e.path)).Nodup := by
    rw [List.map_append, importImages_entries_paths, importSound_entries_paths,
      ← List.map_append]
    exact hnd
  have hloc := buildClips_locals env
    (idmapEntries (some (add_imports emptyMeta emptyVStore images sounds env g).2.2.1))
    defDurMs images
    (create_accessory_materials images.length g1).speed_ids
    (create_accessory_materials images.length g1).placeholder_ids
    (create_accessory_materials images.length g1).sound_mapping_ids
    0 (create_accessory_materials images.length g1).gen hl1 hl2 hl3
  have hmaps := map_impLookup_entries (importImages env images g).entries
    (importSound env sounds (importImages env images g).gen).entries images
    (importImages_entries_paths env images g) hpathsnd
  rw [← hE] at hmaps
  rcases build_timeline_audios emptyContent images sounds defDurMs
      (some (add_imports emptyMeta emptyVStore images sounds env g).2.2.1) env
      (add_imports emptyMeta emptyVStore images sounds env g).2.2.2 with
    ⟨hs, haud⟩ | ⟨a, rest, aid, dur, hs, haud⟩
  · subst hs
    rw [hvid, haud]
    simp only [emptyContent, emptyMaterials, List.nil_append, List.map_nil,
      List.append_nil]
    rw [hloc, hmaps, importImages_entries_ids, filterMap_id_map_some]
    simp [importSound]
  · subst hs
    rw [hvid, haud]
    simp only [emptyContent, emptyMaterials, List.nil_append, List.map_cons,
      List.map_nil, List.map_append]
    rw [hloc, hmaps, importImages_entries_ids]
    have haudlook : impLookup
        (idmapEntries (some (add_imports emptyMeta emptyVStore images (a :: rest) env g).2.2.1))
        (pyAbs a) = some (Ident.gen (importImages env images g).gen) := by
      rw [hE]
      exact impLookup_unique _
        (⟨pyAbs a, Ident.gen (importImages env images g).gen⟩ : ImportMapEntry)
        (List.mem_append_right _ (by simp [importSound])) hpathsnd
    rw [List.filterMap_append, filterMap_id_map_some]
    rw [haudlook]
    simp [importSound, List.filterMap_cons]

/-- C2 (amended): starting from empty documents, when the registered asset
paths (the images list plus the first sound) are pairwise distinct,
the import-record ids of the catalog's type-0 bucket, the child_id values of
the virtual store's type-1 bucket, and the local_material_id values
carried by the content document's video and audio materials are equal as
sets. With duplicate paths the path-to-id map built by build_timeline
keeps only the last minted id of a path, so the claim fails without the
distinctness hypothesis. -/
theorem cross_document_id_agreement :
    ∀ (images sounds : List String) (defDurMs : Int) (env : ProbeEnv) (g : Nat),
      ((images ++ sounds.take 1).map pyAbs).Nodup →
      ∀ x : Ident,
        (x ∈ (metaBucketValue (add_imports emptyMeta emptyVStore images sounds env g).1 0).map
            (fun r => r.id) ↔
          x ∈ (vBucketValue (add_imports emptyMeta emptyVStore images sounds env g).2.1 1).map
            (fun c => c.child_id)) ∧
        (x ∈ (vBucketValue (add_imports emptyMeta emptyVStore images sounds env g).2.1 1).map
            (fun c => c.child_id) ↔
          x ∈ (((build_timeline emptyContent images sounds defDurMs
              (some (add_imports emptyMeta emptyVStore images sounds env g).2.2.1) env
              (add_imports emptyMeta emptyVStore images sounds env g).2.2.2).1.materials.videos.map
                (fun v => v.local_material_id)) ++
            ((build_timeline emptyContent images sounds defDurMs
              (some (add_imports emptyMeta emptyVStore images sounds env g).2.2.1) env
              (add_imports emptyMeta emptyVStore images sounds env g).2.2.2).1.materials.audios.map
                (fun a => a.local_material_id))).filterMap id) := by
  intro images sounds defDurMs env g hnd x
  rw [pipeline_import_ids, pipeline_child_ids, pipeline_local_ids images sounds defDurMs env g hnd]
  exact ⟨Iff.rfl, Iff.rfl⟩

/-- C2 counterexample: with the duplicate asset list [a.jpg, a.jpg] the
catalog mints two ids but build_timeline's path map retains only the last
one, so the first minted id is never carried as a local_material_id and
the claimed set equality fails. -/
theorem cross_document_id_agreement_cex :
    (Ident.gen 0 ∈ (metaBucketValue
      (add_imports emptyMeta emptyVStore ["a.jpg", "a.jpg"] [] testEnv 0).1 0).map
        (fun r => r.id)) ∧
    ¬ (Ident.gen 0 ∈ (((build_timeline emptyContent ["a.jpg", "a.jpg"] [] 5000
        (some (add_imports emptyMeta emptyVStore ["a.jpg", "a.jpg"] [] testEnv 0).2.2.1) testEnv
        (add_imports emptyMeta emptyVStore ["a.jpg", "a.jpg"] [] testEnv 0).2.2.2).1.materials.videos.map
          (fun v => v.local_material_id)) ++
      ((build_timeline emptyContent ["a.jpg", "a.jpg"] [] 5000
        (some (add_imports emptyMeta emptyVStore ["a.jpg", "a.jpg"] [] testEnv 0).2.2.1) testEnv
        (add_imports emptyMeta emptyVStore ["a.jpg", "a.jpg"] [] testEnv 0).2.2.2).1.materials.audios.map
          (fun a => a.local_material_id))).filterMap id) := by
  decide

/-- C2 witness: the amended agreement on a concrete distinct-path run. -/
theorem cross_document_id_agreement_witness :
    (((["a.jpg", "b.mp4"] ++ (["c.mp3"] : List String).take 1).map pyAbs).Nodup) ∧
    (∀ x : Ident,
      (x ∈ (metaBucketValue
          (add_imports emptyMeta emptyVStore ["a.jpg", "b.mp4"] ["c.mp3"] testEnv 0).1 0).map
            (fun r => r.id) ↔
        x ∈ (vBucketValue
          (add_imports emptyMeta emptyVStore ["a.jpg", "b.mp4"] ["c.mp3"] testEnv 0).2.1 1).map
            (fun c => c.child_id)) ∧
      (x ∈ (vBucketValue
          (add_imports emptyMeta emptyVStore ["a.jpg", "b.mp4"] ["c.mp3"] testEnv 0).2.1 1).map
            (fun c => c.child_id) ↔
        x ∈ (((build_timeline emptyContent ["a.jpg", "b.mp4"] ["c.mp3"] 5000
            (some (add_imports emptyMeta emptyVStore ["a.jpg", "b.mp4"] ["c.mp3"] testEnv 0).2.2.1)
            testEnv
            (add_imports emptyMeta emptyVStore ["a.jpg", "b.mp4"] ["c.mp3"] testEnv 0).2.2.2).1.materials.videos.map
              (fun v => v.local_material_id)) ++
          ((build_timeline emptyContent ["a.jpg", "b.mp4"] ["c.mp3"] 5000
            (some (add_imports emptyMeta emptyVStore ["a.jpg", "b.mp4"] ["c.mp3"] testEnv 0).2.2.1)
            testEnv
            (add_imports emptyMeta emptyVStore ["a.jpg", "b.mp4"] ["c.mp3"] testEnv 0).2.2.2).1.materials.audios.map
              (fun a => a.local_material_id))).filterMap id)) :=
  ⟨by decide,
   cross_document_id_agreement ["a.jpg", "b.mp4"] ["c.mp3"] 5000 testEnv 0 (by decide)⟩

theorem mem_insertAt {α : Type} :
    ∀ (l : List α) (n : Nat) (a x : α), x ∈ insertAt l n a → x = a ∨ x ∈ l := by
  intro l
  induction l with
  | nil =>
    intro n a x hx
    cases n <;> simpa [insertAt] using hx
  | cons y ys ih =>
    intro n a x hx
    cases n with
    | zero =>
      rcases List.mem_cons.mp hx with h | h
      · exact Or.inl h
      · exact Or.inr h
    | succ n =>
      simp only [insertAt] at hx
      rcases List.mem_cons.mp hx with h | h
      · exact Or.inr (by simp [h])
      · rcases ih n a x h with h' | h'
        · exact Or.inl h'
        · exact Or.inr (List.mem_cons_of_mem _ h')

theorem applyTransLoop_spec (catalog : List TransSpec) (cache_root : String)
    (resolve : String → String → String) (oracle : Nat → TransChoice) :
    ∀ (segs : List Segment) (i g : Nat)
      (segs' : List Segment) (ts : List TransitionMaterial) (g' : Nat),
      applyTransLoop catalog cache_root resolve oracle i segs g = (segs', ts, g') →
      segs'.length = segs.length ∧
      g' = g + ts.length ∧
      ts.map (fun t => t.id) = (List.range' g ts.length).map Ident.gen ∧
      (∀ j, j < segs.length →
        (segs'.getD j dSeg).id = (segs.getD j dSeg).id ∧
        (segs'.getD j dSeg).material_id = (segs.getD j dSeg).material_id ∧
        (segs'.getD j dSeg).target_timerange = (segs.getD j dSeg).target_timerange ∧
        (segs'.getD j dSeg).source_timerange = (segs.getD j dSeg).source_timerange) ∧
      (∀ j, j + 1 = segs.length → segs'.getD j dSeg = segs.getD j dSeg) ∧
      (∀ j, j < segs.length →
        (segs'.getD j dSeg).extra_material_refs = (segs.getD j dSeg).extra_material_refs ∨
        ∃ tid, tid ∈ ts.map (fun t => t.id) ∧
          tid ∉ (segs.getD j dSeg).extra_material_refs ∧
          (segs'.getD j dSeg).extra_material_refs =
            insertAt (segs.getD j dSeg).extra_material_refs
              (if (segs.getD j dSeg).extra_material_refs.length ≥ 2 then 2
               else (segs.getD j dSeg).extra_material_refs.length) tid) ∧
      (∀ j, j < segs.length → ∀ x, x ∈ (segs'.getD j dSeg).extra_material_refs →
        x ∈ (segs.getD j dSeg).extra_material_refs ∨ x ∈ ts.map (fun t => t.id)) := by
  intro segs
  induction segs with
  | nil =>
    intro i g segs' ts g' h
    simp only [applyTransLoop, Prod.mk.injEq] at h
    obtain ⟨rfl, rfl, rfl⟩ := h
    simp
  | cons s0 rest ih =>
    cases rest with
    | nil =>
      intro i g segs' ts g' h
      simp only [applyTransLoop, Prod.mk.injEq] at h
      obtain ⟨rfl, rfl, rfl⟩ := h
      refine ⟨rfl, by simp, by simp, ?_, ?_, ?_, ?_⟩
      · intro j hj
        exact ⟨rfl, rfl, rfl, rfl⟩
      · intro j hj
        rfl
      · intro j hj
        exact Or.inl rfl
      · intro j hj x hx
        exact Or.inl hx
    | cons s1 rest2 =>
      intro i g segs' ts g' h
      simp only [applyTransLoop] at h
      cases hskip : (oracle i).skip with
      | true =>
        rw [hskip] at h
        simp only [if_true] at h
        rcases hr : applyTransLoop catalog cache_root resolve oracle (i + 1) (s1 :: rest2) g with
          ⟨s2, t2, g2⟩
        rw [hr] at h
        simp only [Prod.mk.injEq] at h
        obtain ⟨rfl, rfl, rfl⟩ := h
        obtain ⟨hlen, hgen, hids, hcore, hlast, hrefs, hsub⟩ :=
          ih (i + 1) g s2 t2 g2 hr
        refine ⟨by simp [hlen], hgen, hids, ?_, ?_, ?_, ?_⟩
        · intro j hj
          cases j with
          | zero => exact ⟨rfl, rfl, rfl, rfl⟩
          | succ j' =>
            simp only [List.getD_cons_succ]
            exact hcore j' (by simpa using hj)
        · intro j hj
          cases j with
          | zero =>
            simp only [List.length_cons] at hj
            omega
          | succ j' =>
            simp only [List.getD_cons_succ]
            exact hlast j' (by simpa using hj)
        · intro j hj
          cases j with
          | zero => exact Or.inl rfl
          | succ j' =>
            simp only [List.getD_cons_succ]
            exact hrefs j' (by simpa using hj)
        · intro j hj x hx
          cases j with
          | zero => exact Or.inl hx
          | succ j' =>
            simp only [List.getD_cons_succ] at hx ⊢
            exact hsub j' (by simpa using hj) x hx
      | false =>
        rw [hskip] at h
        simp only [Bool.false_eq_true, if_false] at h
        rcases hr : applyTransLoop catalog cache_root resolve oracle (i + 1) (s1 :: rest2) (g + 1) with
          ⟨s2, t2, g2⟩
        rw [hr] at h
        simp only [Prod.mk.injEq] at h
        obtain ⟨rfl, rfl, rfl⟩ := h
        obtain ⟨hlen, hgen, hids, hcore, hlast, hrefs, hsub⟩ :=
          ih (i + 1) (g + 1) s2 t2 g2 hr
        refine ⟨by simp [hlen], by simp [hgen]; omega, ?_, ?_, ?_, ?_, ?_⟩
        · simp only [List.map_cons, List.length_cons, mkTransitionMaterial]
          rw [List.range'_succ]
          simp only [List.map_cons]
          rw [hids]
        · intro j hj
          cases j with
          | zero =>
            constructor
            · split <;> rfl
            constructor
            · split <;> rfl
            constructor
            · split <;> rfl
            · split <;> rfl
          | succ j' =>
            simp only [List.getD_cons_succ]
            exact hcore j' (by simpa using hj)
        · intro j hj
          cases j with
          | zero =>
            simp only [List.length_cons] at hj
            omega
          | succ j' =>
            simp only [List.getD_cons_succ]
            exact hlast j' (by simpa using hj)
        · intro j hj
          cases j with
          | zero =>
            simp only [List.getD_cons_zero]
            by_cases hmem : Ident.gen g ∈ s0.extra_material_refs
            · rw [if_pos hmem]
              exact Or.inl rfl
            · rw [if_neg hmem]
              refine Or.inr ⟨Ident.gen g, ?_, hmem, rfl⟩
              simp [mkTransitionMaterial]
          | succ j' =>
            simp only [List.getD_cons_succ]
            rcases hrefs j' (by simpa using hj) with h' | ⟨tid, htid, hnmem, heq⟩
            · exact Or.inl h'
            · refine Or.inr ⟨tid, ?_, hnmem, heq⟩
              simp only [List.map_cons, List.mem_cons]
              exact Or.inr htid
        · intro j hj x hx
          cases j with
          | zero =>
            simp only [List.getD_cons_zero] at hx ⊢
            by_cases hmem : Ident.gen g ∈ s0.extra_material_refs
            · rw [if_pos hmem] at hx
              exact Or.inl hx
            · rw [if_neg hmem] at hx
              simp only at hx
              rcases mem_insertAt _ _ _ _ hx with h' | h'
              · refine Or.inr ?_
                simp [h', mkTransitionMaterial]
              · exact Or.inl h'
          | succ j' =>
            simp only [List.getD_cons_succ] at hx ⊢
            rcases hsub j' (by simpa using hj) x hx with h' | h'
            · exact Or.inl h'
            · refine Or.inr ?_
              simp only [List.map_cons, List.mem_cons]
              exact Or.inr h'

theorem apply_transitions_cases (dc : DraftContent) (tl : Timeline) (names : List String)
    (resolve : String → String → String) (oracle : Nat → TransChoice) (g : Nat) :
    ((apply_transitions dc tl names resolve oracle g).1 = dc) ∨
    (∃ vt, first_track dc.tracks ("video") = some vt ∧ 2 ≤ vt.segments.length ∧
      (apply_transitions dc tl names resolve oracle g).1 =
        { dc with
          materials := { dc.materials with
            transitions := dc.materials.transitions ++
              (applyTransLoop (filteredCatalog tl.catalog names) tl.cache_root resolve oracle 0
                vt.segments g).2.1 },
          tracks := updateFirstTrack (fun t => t.type == "video")
            (fun t => { t with segments :=
              (applyTransLoop (filteredCatalog tl.catalog names) tl.cache_root resolve oracle 0
                vt.segments g).1 }) dc.tracks }) := by
  unfold apply_transitions
  cases hv : first_track dc.tracks ("video") with
  | none =>
    simp only [hv]
    exact Or.inl trivial
  | some vt =>
    simp only [hv]
    by_cases hlen : vt.segments.length < 2
    · rw [if_pos hlen]
      exact Or.inl rfl
    · rw [if_neg hlen]
      cases hcat : tl.catalog.isEmpty with
      | true =>
        simp only [hcat, if_true]
        exact Or.inl trivial
      | false =>
        simp only [hcat, Bool.false_eq_true, if_false]
        exact Or.inr ⟨vt, rfl, by omega, rfl⟩

theorem updateFirstTrack_of_none (p : Track → Bool) (f : Track → Track) :
    ∀ l : List Track, (∀ t ∈ l, ¬ p t = true) → updateFirstTrack p f l = l := by
  intro l
  induction l with
  | nil => intro _; rfl
  | cons t rest ih =>
    intro h
    have hpt : p t = false := by
      have := h t (by simp)
      simpa using this
    simp only [updateFirstTrack, hpt, Bool.false_eq_true, if_false, List.cons.injEq, true_and]
    exact ih (fun x hx => h x (by simp [hx]))

theorem updateFirstTrack_self :
    ∀ (l : List Track) (vt : Track), first_track l ("video") = some vt →
      updateFirstTrack (fun t => t.type == "video")
        (fun t => { t with segments := vt.segments }) l = l := by
  intro l
  induction l with
  | nil => intro vt h; simp [first_track] at h
  | cons t rest ih =>
    intro vt h
    cases hm : (t.type == "video") with
    | true =>
      have ht : vt = t := by
        simp only [first_track, List.find?_cons, hm] at h
        exact (Option.some.injEq _ _ ▸ h).symm
      subst ht
      simp [updateFirstTrack, hm]
    | false =>
      have hrest : first_track rest ("video") = some vt := by
        simpa only [first_track, List.find?_cons, hm] using h
      simp only [updateFirstTrack, hm, Bool.false_eq_true, if_false, List.cons.injEq, true_and]
      exact ih vt hrest

/-- C5: for every cut, the preceding segment's reference list is either
untouched, or a single not-already-present transition identifier is
inserted at ordinal index 2 when the list had at least two entries and at
the end otherwise; the final segment of the track (which is only ever the
right-hand segment of a cut) is never modified. -/
theorem transition_ref_ordinal_insert :
    ∀ (dc : DraftContent) (tl : Timeline) (names : List String)
      (resolve : String → String → String) (oracle : Nat → TransChoice) (g : Nat),
      (videoSegments (apply_transitions dc tl names resolve oracle g).1).length =
        (videoSegments dc).length ∧
      (∀ j, j + 1 = (videoSegments dc).length →
        (videoSegments (apply_transitions dc tl names resolve oracle g).1).getD j dSeg =
          (videoSegments dc).getD j dSeg) ∧
      (∀ j, j < (videoSegments dc).length →
        ((videoSegments (apply_transitions dc tl names resolve oracle g).1).getD j
            dSeg).extra_material_refs =
          ((videoSegments dc).getD j dSeg).extra_material_refs ∨
        ∃ tid, tid ∉ ((videoSegments dc).getD j dSeg).extra_material_refs ∧
          ((videoSegments (apply_transitions dc tl names resolve oracle g).1).getD j
              dSeg).extra_material_refs =
            insertAt ((videoSegments dc).getD j dSeg).extra_material_refs
              (if ((videoSegments dc).getD j dSeg).extra_material_refs.length ≥ 2 then 2
               else ((videoSegments dc).getD j dSeg).extra_material_refs.length) tid) := by
  intro dc tl names resolve oracle g
  rcases apply_transitions_cases dc tl names resolve oracle g with heq | ⟨vt, hv, hlen2, heq⟩
  · rw [heq]
    exact ⟨rfl, fun j _ => rfl, fun j _ => Or.inl rfl⟩
  · rw [heq]
    have hsegs : videoSegments
        ({ dc with
          materials := { dc.materials with
            transitions := dc.materials.transitions ++
              (applyTransLoop (filteredCatalog tl.catalog names) tl.cache_root resolve oracle 0
                vt.segments g).2.1 },
          tracks := updateFirstTrack (fun t => t.type == "video")
            (fun t => { t with segments :=
              (applyTransLoop (filteredCatalog tl.catalog names) tl.cache_root resolve oracle 0
                vt.segments g).1 }) dc.tracks } : DraftContent) =
        (applyTransLoop (filteredCatalog tl.catalog names) tl.cache_root resolve oracle 0
          vt.segments g).1 := by
      simp only [videoSegments, videoSegmentsOf]
      rw [first_track_updateFirstTrack_same
        (fun t => { t with segments :=
          (applyTransLoop (filteredCatalog tl.catalog names) tl.cache_root resolve oracle 0
            vt.segments g).1 }) ("video") (fun t => rfl) dc.tracks, hv]
      rfl
    have hvs : videoSegments dc = vt.segments := by
      simp [videoSegments, videoSegmentsOf, hv]
    rw [hsegs, hvs]
    obtain ⟨hlen, hgen, hids, hcore, hlast, hrefs, hsub⟩ :=
      applyTransLoop_spec (filteredCatalog tl.catalog names) tl.cache_root resolve oracle
        vt.segments 0 g _ _ _ rfl
    refine ⟨hlen, hlast, ?_⟩
    intro j hj
    rcases hrefs j hj with h | ⟨tid, _, hnm, hins⟩
    · exact Or.inl h
    · exact Or.inr ⟨tid, hnm, hins⟩

/-- C9: the only mutations apply_transitions performs on the content
document are appending the created transition materials and replacing the
first video track's segment list with one of equal length whose segments
keep their identifier, material reference and both timeranges, whose last
segment is fully untouched, and whose reference lists only ever gain
identifiers of the freshly appended transitions; the duration field and
every other material array are untouched. -/
theorem apply_transitions_frame :
    ∀ (dc : DraftContent) (tl : Timeline) (names : List String)
      (resolve : String → String → String) (oracle : Nat → TransChoice) (g : Nat),
      ∃ (ts : List TransitionMaterial) (S : List Segment),
        (apply_transitions dc tl names resolve oracle g).1 =
          { dc with
            materials := { dc.materials with
              transitions := dc.materials.transitions ++ ts },
            tracks := updateFirstTrack (fun t => t.type == "video")
              (fun t => { t with segments := S }) dc.tracks } ∧
        S.length = (videoSegments dc).length ∧
        (∀ j, j < (videoSegments dc).length →
          (S.getD j dSeg).id = ((videoSegments dc).getD j dSeg).id ∧
          (S.getD j dSeg).material_id = ((videoSegments dc).getD j dSeg).material_id ∧
          (S.getD j dSeg).target_timerange = ((videoSegments dc).getD j dSeg).target_timerange ∧
          (S.getD j dSeg).source_timerange = ((videoSegments dc).getD j dSeg).source_timerange) ∧
        (∀ j, j + 1 = (videoSegments dc).length →
          S.getD j dSeg = (videoSegments dc).getD j dSeg) ∧
        (∀ j, j < (videoSegments dc).length →
          ∀ x, x ∈ (S.getD j dSeg).extra_material_refs →
            x ∈ ((videoSegments dc).getD j dSeg).extra_material_refs ∨
              x ∈ ts.map (fun t => t.id)) := by
  intro dc tl names resolve oracle g
  rcases apply_transitions_cases dc tl names resolve oracle g with heq | ⟨vt, hv, hlen2, heq⟩
  · cases hvt : first_track dc.tracks ("video") with
    | none =>
      refine ⟨[], [], ?_, ?_, ?_, ?_, ?_⟩
      · rw [heq]
        have hnone : ∀ t ∈ dc.tracks, ¬ (t.type == "video") = true := by
          have := List.find?_eq_none.mp hvt
          simpa [first_track] using this
        rw [updateFirstTrack_of_none _ _ dc.tracks hnone]
        simp
      · simp [videoSegments, videoSegmentsOf, hvt]
      · intro j hj
        simp [videoSegments, videoSegmentsOf, hvt] at hj
      · intro j hj
        simp [videoSegments, videoSegmentsOf, hvt] at hj
      · intro j hj
        simp [videoSegments, videoSegmentsOf, hvt] at hj
    | some vt =>
      refine ⟨[], vt.segments, ?_, ?_, ?_, ?_, ?_⟩
      · rw [heq]
        rw [updateFirstTrack_self dc.tracks vt hvt]
        simp
      · simp [videoSegments, videoSegmentsOf, hvt]
      · intro j hj
        simp [videoSegments, videoSegmentsOf, hvt]
      · intro j hj
        simp [videoSegments, videoSegmentsOf, hvt]
      · intro j hj x hx
        refine Or.inl ?_
        simpa [videoSegments, videoSegmentsOf, hvt] using hx
  · obtain ⟨hlen, hgen, hids, hcore, hlast, hrefs, hsub⟩ :=
      applyTransLoop_spec (filteredCatalog tl.catalog names) tl.cache_root resolve oracle
        vt.segments 0 g _ _ _ rfl
    have hvs : videoSegments dc = vt.segments := by
      simp [videoSegments, videoSegmentsOf, hv]
    refine ⟨(applyTransLoop (filteredCatalog tl.catalog names) tl.cache_root resolve oracle 0
        vt.segments g).2.1,
      (applyTransLoop (filteredCatalog tl.catalog names) tl.cache_root resolve oracle 0
        vt.segments g).1, heq, ?_, ?_, ?_, ?_⟩
    · rw [hvs]; exact hlen
    · rw [hvs]; exact hcore
    · rw [hvs]; exact hlast
    · rw [hvs]; exact hsub

theorem getD_mem {α : Type} (d : α) :
    ∀ (l : List α) (n : Nat), n < l.length → l.getD n d ∈ l := by
  intro l
  induction l with
  | nil => intro n h; simp at h
  | cons a t ih =>
    intro n h
    cases n with
    | zero => simp
    | succ n =>
      simp only [List.getD_cons_succ]
      exact List.mem_cons_of_mem _ (ih n (by simpa using h))

theorem ts_id_ge (ts : List TransitionMaterial) (g : Nat)
    (hids : ts.map (fun t => t.id) = (List.range' g ts.length).map Ident.gen) :
    ∀ t ∈ ts, ∃ n, g ≤ n ∧ t.id = Ident.gen n := by
  intro t ht
  have hmem : t.id ∈ ts.map (fun t => t.id) := List.mem_map_of_mem _ ht
  rw [hids] at hmem
  obtain ⟨n, hn, hid⟩ := List.mem_map.mp hmem
  rw [List.mem_range'_1] at hn
  exact ⟨n, hn.1, hid.symm⟩

theorem applyTransLoop_inserted_unique (catalog : List TransSpec) (cache_root : String)
    (resolve : String → String → String) (oracle : Nat → TransChoice) :
    ∀ (segs : List Segment) (i g : Nat)
      (segs' : List Segment) (ts : List TransitionMaterial) (g' : Nat),
      applyTransLoop catalog cache_root resolve oracle i segs g = (segs', ts, g') →
      (∀ s ∈ segs, ∀ n, g ≤ n → Ident.gen n ∉ s.extra_material_refs) →
      ∀ t ∈ ts, ∃ j, j < segs'.length ∧
        t.id ∈ (segs'.getD j dSeg).extra_material_refs ∧
        ∀ k, k < segs'.length →
          t.id ∈ (segs'.getD k dSeg).extra_material_refs → k = j := by
  intro segs
  induction segs with
  | nil =>
    intro i g segs' ts g' h hfresh t ht
    simp only [applyTransLoop, Prod.mk.injEq] at h
    obtain ⟨rfl, rfl, rfl⟩ := h
    simp at ht
  | cons s0 rest ih =>
    cases rest with
    | nil =>
      intro i g segs' ts g' h hfresh t ht
      simp only [applyTransLoop, Prod.mk.injEq] at h
      obtain ⟨rfl, rfl, rfl⟩ := h
      simp at ht
    | cons s1 rest2 =>
      intro i g segs' ts g' h hfresh t ht
      simp only [applyTransLoop] at h
      cases hskip : (oracle i).skip with
      | true =>
        rw [hskip] at h
        simp only [if_true] at h
        rcases hr : applyTransLoop catalog cache_root resolve oracle (i + 1) (s1 :: rest2) g with
          ⟨s2, t2, g2⟩
        rw [hr] at h
        simp only [Prod.mk.injEq] at h
        obtain ⟨rfl, rfl, rfl⟩ := h
        have hfresh' : ∀ s ∈ s1 :: rest2, ∀ n, g ≤ n →
            Ident.gen n ∉ s.extra_material_refs :=
          fun s hs n hn => hfresh s (List.mem_cons_of_mem _ hs) n hn
        obtain ⟨hlen2, _, hids2, _, _, _, hsub2⟩ :=
          applyTransLoop_spec catalog cache_root resolve oracle (s1 :: rest2) (i + 1) g
            s2 t2 g2 hr
        obtain ⟨j, hj, hmem, huniq⟩ := ih (i + 1) g s2 t2 g2 hr hfresh' t ht
        refine ⟨j + 1, by simpa using Nat.succ_lt_succ hj, by simpa using hmem, ?_⟩
        intro k hk hkmem
        cases k with
        | zero =>
          exfalso
          simp only [List.getD_cons_zero] at hkmem
          obtain ⟨n, hn, hid⟩ := ts_id_ge t2 g hids2 t ht
          rw [hid] at hkmem
          exact hfresh s0 (by simp) n hn hkmem
        | succ k' =>
          simp only [List.getD_cons_succ] at hkmem
          have := huniq k' (by simpa using hk) hkmem
          omega
      | false =>
        rw [hskip] at h
        simp only [Bool.false_eq_true, if_false] at h
        rcases hr : applyTransLoop catalog cache_root resolve oracle (i + 1) (s1 :: rest2)
            (g + 1) with ⟨s2, t2, g2⟩
        rw [hr] at h
        simp only [Prod.mk.injEq] at h
        obtain ⟨rfl, rfl, rfl⟩ := h
        have hfresh' : ∀ s ∈ s1 :: rest2, ∀ n, g + 1 ≤ n →
            Ident.gen n ∉ s.extra_material_refs :=
          fun s hs n hn => hfresh s (List.mem_cons_of_mem _ hs) n (by omega)
        obtain ⟨hlen2, _, hids2, _, _, _, hsub2⟩ :=
          applyTransLoop_spec catalog cache_root resolve oracle (s1 :: rest2) (i + 1) (g + 1)
            s2 t2 g2 hr
        have hg0 : Ident.gen g ∉ s0.extra_material_refs :=
          hfresh s0 (by simp) g (le_refl g)
        rcases List.mem_cons.mp ht with rfl | ht2
        · refine ⟨0, by simp, ?_, ?_⟩
          · simp only [List.getD_cons_zero, mkTransitionMaterial]
            rw [if_neg hg0]
            exact mem_insertAt_self _ _ _
          · intro k hk hkmem
            cases k with
            | zero => rfl
            | succ k' =>
              exfalso
              simp only [List.getD_cons_succ, mkTransitionMaterial] at hkmem
              have hk' : k' < (s1 :: rest2).length := by
                simp only [List.length_cons] at hk hlen2 ⊢
                omega
              rcases hsub2 k' hk' (Ident.gen g) hkmem with hmem' | hmem'
              · exact hfresh ((s1 :: rest2).getD k' dSeg)
                  (List.mem_cons_of_mem _ (getD_mem dSeg _ k' hk')) g (le_refl g) hmem'
              · rw [hids2] at hmem'
                obtain ⟨n, hn, hid⟩ := List.mem_map.mp hmem'
                rw [List.mem_range'_1] at hn
                have := identGen_injective hid
                omega
        · obtain ⟨j, hj, hmem, huniq⟩ := ih (i + 1) (g + 1) s2 t2 g2 hr hfresh' t ht2
          obtain ⟨n, hn, hid⟩ := ts_id_ge t2 (g + 1) hids2 t ht2
          refine ⟨j + 1, by simpa using Nat.succ_lt_succ hj, by simpa using hmem, ?_⟩
          intro k hk hkmem
          cases k with
          | zero =>
            exfalso
            simp only [List.getD_cons_zero] at hkmem
            rw [if_neg hg0] at hkmem
            rcases mem_insertAt _ _ _ _ hkmem with heq' | hmem'
            · rw [hid] at heq'
              have := identGen_injective heq'
              omega
            · rw [hid] at hmem'
              exact hfresh s0 (by simp) n (by omega) hmem'
          | succ k' =>
            simp only [List.getD_cons_succ] at hkmem
            have := huniq k' (by simpa using hk) hkmem
            omega

theorem videoSegmentsOf_update (tracks : List Track) (vt : Track)
    (hv : first_track tracks ("video") = some vt) (S : List Segment) :
    videoSegmentsOf (updateFirstTrack (fun t => t.type == "video")
      (fun t => { t with segments := S }) tracks) = S := by
  simp only [videoSegmentsOf]
  rw [first_track_updateFirstTrack_same (fun t => { t with segments := S }) ("video")
    (fun t => rfl) tracks, hv]
  rfl

/-- C1 (amended): every transition appended by apply_transitions is tied to
the cut it bridges: a cut j of the video track whose preceding segment
carries the transition's identifier in its extra_material_refs list in the
output, exactly where the source splices it. The transition's duration is
always at least 200000 microseconds, and when the durations d1, d2 of the
two segments of that cut are both positive it is at most
max(200000, min(d1, d2)). The original upper bound min(d1, d2) holds
exactly when min(d1, d2) is itself at least the 200ms floor, which the
clamp max(200000, ...) of the source prioritises. -/
theorem transitions_inserted_duration_bounds :
    ∀ (dc : DraftContent) (tl : Timeline) (names : List String)
      (resolve : String → String → String) (oracle : Nat → TransChoice) (g : Nat),
      ∀ t ∈ ((apply_transitions dc tl names resolve oracle g).1.materials.transitions.drop
          dc.materials.transitions.length),
        ∃ j, j + 1 < (videoSegments dc).length ∧
          t.id ∈ ((videoSegments (apply_transitions dc tl names resolve oracle g).1).getD j
            dSeg).extra_material_refs ∧
          200000 ≤ t.duration ∧
          (0 < ((videoSegments dc).getD j dSeg).target_timerange.duration →
           0 < ((videoSegments dc).getD (j + 1) dSeg).target_timerange.duration →
           t.duration ≤ max 200000
             (min ((videoSegments dc).getD j dSeg).target_timerange.duration
               (((videoSegments dc).getD (j + 1) dSeg).target_timerange.duration))) := by
  intro dc tl names resolve oracle g t ht
  rcases apply_transitions_cases dc tl names resolve oracle g with heq | ⟨vt, hv, hlen2, heq⟩
  · rw [heq] at ht
    rw [List.drop_length] at ht
    simp at ht
  · rw [heq] at ht
    simp only [List.drop_left] at ht
    have hseg : videoSegments dc = vt.segments := by
      simp [videoSegments, videoSegmentsOf, hv]
    rw [heq]
    have hsegs : videoSegments
        ({ dc with
          materials := { dc.materials with
            transitions := dc.materials.transitions ++
              (applyTransLoop (filteredCatalog tl.catalog names) tl.cache_root resolve oracle 0
                vt.segments g).2.1 },
          tracks := updateFirstTrack (fun t => t.type == "video")
            (fun t => { t with segments :=
              (applyTransLoop (filteredCatalog tl.catalog names) tl.cache_root resolve oracle 0
                vt.segments g).1 }) dc.tracks } : DraftContent) =
        (applyTransLoop (filteredCatalog tl.catalog names) tl.cache_root resolve oracle 0
          vt.segments g).1 := by
      simp only [videoSegments]
      exact videoSegmentsOf_update dc.tracks vt hv _
    rw [hsegs, hseg]
    exact applyTransLoop_bounds _ _ _ _ vt.segments 0 g t ht

/-- C1 witness: the amended bound with its cut tie instantiated on the
concrete two-segment run. -/
theorem transitions_inserted_duration_bounds_witness :
    ((apply_transitions shortSegContent fadeTimeline [] noResolve includeAllOracle
        0).1.materials.transitions.getD 0 dTrans ∈
      ((apply_transitions shortSegContent fadeTimeline [] noResolve includeAllOracle
          0).1.materials.transitions.drop
        shortSegContent.materials.transitions.length)) ∧
    (∃ j, j + 1 < (videoSegments shortSegContent).length ∧
      ((apply_transitions shortSegContent fadeTimeline [] noResolve includeAllOracle
          0).1.materials.transitions.getD 0 dTrans).id ∈
        ((videoSegments (apply_transitions shortSegContent fadeTimeline [] noResolve
          includeAllOracle 0).1).getD j dSeg).extra_material_refs ∧
      200000 ≤ ((apply_transitions shortSegContent fadeTimeline [] noResolve includeAllOracle
          0).1.materials.transitions.getD 0 dTrans).duration ∧
      (0 < ((videoSegments shortSegContent).getD j dSeg).target_timerange.duration →
       0 < ((videoSegments shortSegContent).getD (j + 1) dSeg).target_timerange.duration →
       ((apply_transitions shortSegContent fadeTimeline [] noResolve includeAllOracle
          0).1.materials.transitions.getD 0 dTrans).duration ≤ max 200000
         (min ((videoSegments shortSegContent).getD j dSeg).target_timerange.duration
           (((videoSegments shortSegContent).getD (j + 1) dSeg).target_timerange.duration)))) :=
  ⟨by decide,
   transitions_inserted_duration_bounds shortSegContent fadeTimeline [] noResolve
     includeAllOracle 0 _ (by decide)⟩

/-- C10: assuming the input document does not already contain identifiers
the run's generator is about to mint (the uuid4 freshness assumption),
every transition material appended during one apply_transitions run has
its identifier inserted into the reference list of exactly one segment of
the resulting video track. -/
theorem transitions_each_referenced_once :
    ∀ (dc : DraftContent) (tl : Timeline) (names : List String)
      (resolve : String → String → String) (oracle : Nat → TransChoice) (g : Nat),
      (∀ tr ∈ dc.tracks, ∀ s ∈ tr.segments, ∀ n, g ≤ n →
        Ident.gen n ∉ s.extra_material_refs) →
      ∀ t ∈ ((apply_transitions dc tl names resolve oracle g).1.materials.transitions.drop
          dc.materials.transitions.length),
        ∃ j, j < (videoSegments (apply_transitions dc tl names resolve oracle g).1).length ∧
          t.id ∈ ((videoSegments (apply_transitions dc tl names resolve oracle g).1).getD j
            dSeg).extra_material_refs ∧
          ∀ k, k < (videoSegments (apply_transitions dc tl names resolve oracle g).1).length →
            t.id ∈ ((videoSegments (apply_transitions dc tl names resolve oracle g).1).getD k
              dSeg).extra_material_refs → k = j := by
  intro dc tl names resolve oracle g hfresh t ht
  rcases apply_transitions_cases dc tl names resolve oracle g with heq | ⟨vt, hv, hlen2, heq⟩
  · rw [heq] at ht
    rw [List.drop_length] at ht
    simp at ht
  · rw [heq] at ht
    simp only [List.drop_left] at ht
    have hvtmem : vt ∈ dc.tracks := List.mem_of_find?_eq_some hv
    have hfreshv : ∀ s ∈ vt.segments, ∀ n, g ≤ n → Ident.gen n ∉ s.extra_material_refs :=
      fun s hs n hn => hfresh vt hvtmem s hs n hn
    obtain ⟨j, hj, hmem, huniq⟩ :=
      applyTransLoop_inserted_unique (filteredCatalog tl.catalog names) tl.cache_root resolve
        oracle vt.segments 0 g _ _ _ rfl hfreshv t ht
    rw [heq]
    have hsegs : videoSegments
        ({ dc with
          materials := { dc.materials with
            transitions := dc.materials.transitions ++
              (applyTransLoop (filteredCatalog tl.catalog names) tl.cache_root resolve oracle 0
                vt.segments g).2.1 },
          tracks := updateFirstTrack (fun t => t.type == "video")
            (fun t => { t with segments :=
              (applyTransLoop (filteredCatalog tl.catalog names) tl.cache_root resolve oracle 0
                vt.segments g).1 }) dc.tracks } : DraftContent) =
        (applyTransLoop (filteredCatalog tl.catalog names) tl.cache_root resolve oracle 0
          vt.segments g).1 := by
      simp only [videoSegments]
      exact videoSegmentsOf_update dc.tracks vt hv _
    rw [hsegs]
    exact ⟨j, hj, hmem, huniq⟩

/-- C10 witness: the freshness hypothesis and the exactly-once reference
property on the concrete two-segment run. -/
theorem transitions_each_referenced_once_witness :
    (∀ tr ∈ shortSegContent.tracks, ∀ s ∈ tr.segments, ∀ n, 0 ≤ n →
      Ident.gen n ∉ s.extra_material_refs) ∧
    ((apply_transitions shortSegContent fadeTimeline [] noResolve includeAllOracle
        0).1.materials.transitions.getD 0 dTrans ∈
      ((apply_transitions shortSegContent fadeTimeline [] noResolve includeAllOracle
          0).1.materials.transitions.drop shortSegContent.materials.transitions.length)) ∧
    (∃ j, j < (videoSegments (apply_transitions shortSegContent fadeTimeline [] noResolve
        includeAllOracle 0).1).length ∧
      ((apply_transitions shortSegContent fadeTimeline [] noResolve includeAllOracle
          0).1.materials.transitions.getD 0 dTrans).id ∈
        ((videoSegments (apply_transitions shortSegContent fadeTimeline [] noResolve
          includeAllOracle 0).1).getD j dSeg).extra_material_refs ∧
      ∀ k, k < (videoSegments (apply_transitions shortSegContent fadeTimeline [] noResolve
          includeAllOracle 0).1).length →
        ((apply_transitions shortSegContent fadeTimeline [] noResolve includeAllOracle
            0).1.materials.transitions.getD 0 dTrans).id ∈
          ((videoSegments (apply_transitions shortSegContent fadeTimeline [] noResolve
            includeAllOracle 0).1).getD k dSeg).extra_material_refs → k = j) := by
  have hfresh : ∀ tr ∈ shortSegContent.tracks, ∀ s ∈ tr.segments, ∀ n : Nat, 0 ≤ n →
      Ident.gen n ∉ s.extra_material_refs := by
    intro tr htr s hs n _ hmem
    simp only [shortSegContent, mkSeg, List.mem_cons, List.not_mem_nil, or_false] at htr
    subst htr
    simp only [List.mem_cons, List.not_mem_nil, or_false] at hs
    rcases hs with rfl | rfl <;> simp at hmem
  exact ⟨hfresh, by decide,
    transitions_each_referenced_once shortSegContent fadeTimeline [] noResolve
      includeAllOracle 0 hfresh _ (by decide)⟩

theorem doctorTrackStage_id (dc : DraftContent) (autofix : Bool)
    (h : (first_track dc.tracks ("video")).isSome = true) :
    doctorTrackStage dc autofix = (dc, [], [], false) := by
  simp [doctorTrackStage, h]

theorem doctorTrackStage_hasVideo (dc : DraftContent) :
    (first_track (doctorTrackStage dc true).1.tracks ("video")).isSome = true := by
  unfold doctorTrackStage
  cases hff : first_track dc.tracks ("video") with
  | some t => simp [hff]
  | none =>
    simp only [hff, Option.isSome_none, Bool.false_eq_true, if_false, if_true]
    rw [first_track_append, hff]
    simp [first_track, List.find?]

theorem doctorDurationStage_id (dc : DraftContent) (autofix : Bool)
    (h : dc.duration = max (video_span dc) (audio_span dc)) :
    doctorDurationStage dc autofix = (dc, [], [], false) := by
  simp [doctorDurationStage, h]

theorem doctorDurationStage_tracks (dc : DraftContent) (autofix : Bool) :
    (doctorDurationStage dc autofix).1.tracks = dc.tracks := by
  unfold doctorDurationStage
  cases hbe : (dc.duration == max (video_span dc) (audio_span dc)) with
  | true => simp [hbe]
  | false => cases autofix <;> simp [hbe]

theorem doctorDurationStage_post (dc : DraftContent) :
    (doctorDurationStage dc true).1.duration =
      max (video_span (doctorDurationStage dc true).1)
        (audio_span (doctorDurationStage dc true).1) := by
  unfold doctorDurationStage
  cases hbe : (dc.duration == max (video_span dc) (audio_span dc)) with
  | true =>
    simp only [hbe, if_true]
    exact beq_iff_eq.mp hbe
  | false =>
    simp only [hbe, Bool.false_eq_true, if_false, if_true]
    rfl

theorem doctorTmStage_id (dmi : MetaInfo) (dcDur : Int) (autofix : Bool)
    (h : dmi.tm_duration = dcDur) :
    doctorTmStage dmi dcDur autofix = (dmi, [], [], false) := by
  simp [doctorTmStage, h]

theorem doctorTmStage_post (dmi : MetaInfo) (dcDur : Int) :
    (doctorTmStage dmi dcDur true).1.tm_duration = dcDur := by
  unfold doctorTmStage
  cases hbe : (dmi.tm_duration == dcDur) with
  | true =>
    simp only [hbe, if_true]
    exact beq_iff_eq.mp hbe
  | false =>
    simp only [hbe, Bool.false_eq_true, if_false, if_true]

theorem inspect_and_fix_stable (dc : DraftContent) (dmi : MetaInfo) (dvs : VirtualStore)
    (strict autofix : Bool)
    (h1 : (first_track dc.tracks ("video")).isSome = true)
    (h2 : dc.duration = max (video_span dc) (audio_span dc))
    (h3 : dmi.tm_duration = dc.duration) :
    (inspect_and_fix dc dmi dvs strict autofix).patched = false ∧
    (inspect_and_fix dc dmi dvs strict autofix).fixes = [] ∧
    (inspect_and_fix dc dmi dvs strict autofix).draft_content = dc ∧
    (inspect_and_fix dc dmi dvs strict autofix).draft_meta_info = dmi ∧
    (inspect_and_fix dc dmi dvs strict autofix).draft_virtual_store = dvs := by
  simp [inspect_and_fix, doctorTrackStage_id dc autofix h1,
    doctorDurationStage_id dc autofix h2, doctorTmStage_id dmi dc.duration autofix h3]

theorem inspect_and_fix_autofix_invariants (dc : DraftContent) (dmi : MetaInfo)
    (dvs : VirtualStore) (strict : Bool) :
    (first_track (inspect_and_fix dc dmi dvs strict true).draft_content.tracks
      ("video")).isSome = true ∧
    (inspect_and_fix dc dmi dvs strict true).draft_content.duration =
      max (video_span (inspect_and_fix dc dmi dvs strict true).draft_content)
        (audio_span (inspect_and_fix dc dmi dvs strict true).draft_content) ∧
    (inspect_and_fix dc dmi dvs strict true).draft_meta_info.tm_duration =
      (inspect_and_fix dc dmi dvs strict true).draft_content.duration := by
  refine ⟨?_, ?_, ?_⟩
  · show (first_track
        (doctorDurationStage (doctorTrackStage dc true).1 true).1.tracks ("video")).isSome = true
    rw [doctorDurationStage_tracks]
    exact doctorTrackStage_hasVideo dc
  · show (doctorDurationStage (doctorTrackStage dc true).1 true).1.duration =
      max (video_span (doctorDurationStage (doctorTrackStage dc true).1 true).1)
        (audio_span (doctorDurationStage (doctorTrackStage dc true).1 true).1)
    exact doctorDurationStage_post _
  · show (doctorTmStage dmi
        (doctorDurationStage (doctorTrackStage dc true).1 true).1.duration true).1.tm_duration =
      (doctorDurationStage (doctorTrackStage dc true).1 true).1.duration
    exact doctorTmStage_post _ _

/-- C6: running inspect_and_fix with autofix and then running it again on
the documents of the first report yields a second report that is not
patched, lists no fixes, and returns all three documents unchanged (the
autofix pass reaches a fixed point after one run). -/
theorem inspect_and_fix_autofix_idempotent :
    ∀ (dc : DraftContent) (dmi : MetaInfo) (dvs : VirtualStore) (strict : Bool),
      (inspect_and_fix (inspect_and_fix dc dmi dvs strict true).draft_content
        (inspect_and_fix dc dmi dvs strict true).draft_meta_info
        (inspect_and_fix dc dmi dvs strict true).draft_virtual_store strict true).patched =
          false ∧
      (inspect_and_fix (inspect_and_fix dc dmi dvs strict true).draft_content
        (inspect_and_fix dc dmi dvs strict true).draft_meta_info
        (inspect_and_fix dc dmi dvs strict true).draft_virtual_store strict true).fixes = [] ∧
      (inspect_and_fix (inspect_and_fix dc dmi dvs strict true).draft_content
        (inspect_and_fix dc dmi dvs strict true).draft_meta_info
        (inspect_and_fix dc dmi dvs strict true).draft_virtual_store strict true).draft_content =
        (inspect_and_fix dc dmi dvs strict true).draft_content ∧
      (inspect_and_fix (inspect_and_fix dc dmi dvs strict true).draft_content
        (inspect_and_fix dc dmi dvs strict true).draft_meta_info
        (inspect_and_fix dc dmi dvs strict true).draft_virtual_store strict true).draft_meta_info =
        (inspect_and_fix dc dmi dvs strict true).draft_meta_info ∧
      (inspect_and_fix (inspect_and_fix dc dmi dvs strict true).draft_content
        (inspect_and_fix dc dmi dvs strict true).draft_meta_info
        (inspect_and_fix dc dmi dvs strict true).draft_virtual_store strict
          true).draft_virtual_store =
        (inspect_and_fix dc dmi dvs strict true).draft_virtual_store := by
  intro dc dmi dvs strict
  obtain ⟨h1, h2, h3⟩ := inspect_and_fix_autofix_invariants dc dmi dvs strict
  exact inspect_and_fix_stable _ _ _ strict true h1 h2 h3

theorem buildClips_cursor (env : ProbeEnv) (entries : List ImportMapEntry) (defDurMs : Int) :
    ∀ (imgs : List String) (sids pids mids : List Ident) (cursor : Int) (g : Nat),
      sids.length = imgs.length → pids.length = imgs.length → mids.length = imgs.length →
      (buildClips env entries defDurMs imgs sids pids mids cursor g).cursor =
        imgs.foldl (fun c p =>
          c + (if is_video (pyAbs p) then (env.probe_video_meta (pyAbs p)).2.2
               else defDurMs * 1000)) cursor := by
  intro imgs
  induction imgs with
  | nil =>
    intro sids pids mids cursor g h1 h2 h3
    simp [buildClips]
  | cons p ps ih =>
    intro sids pids mids cursor g h1 h2 h3
    cases sids with
    | nil => simp at h1
    | cons sid sids' =>
      cases pids with
      | nil => simp at h2
      | cons pid pids' =>
        cases mids with
        | nil => simp at h3
        | cons mid mids' =>
          simp only [List.length_cons, Nat.succ.injEq] at h1 h2 h3
          cases hvid : is_video (pyAbs p) with
          | true =>
            simp only [buildClips, hvid, if_true, List.foldl_cons]
            rw [ih sids' pids' mids' _ _ h1 h2 h3]
          | false =>
            simp only [buildClips, hvid, Bool.false_eq_true, if_false, List.foldl_cons]
            rw [ih sids' pids' mids' _ _ h1 h2 h3]

theorem audioTracks_filter_of_none (ts : List Track)
    (h : first_track ts ("audio") = none) :
    ts.filter (fun t => t.type == "audio") = [] := by
  rw [List.filter_eq_nil_iff]
  intro t ht
  have := List.find?_eq_none.mp h t ht
  simpa using this

theorem attachVideoSegs_filter_audio (ns : List Segment) :
    ∀ ts : List Track,
      (attachVideoSegs ts ns).filter (fun t => t.type == "audio") =
        ts.filter (fun t => t.type == "audio") := by
  intro ts
  induction ts with
  | nil => rfl
  | cons t rest ih =>
    unfold attachVideoSegs at ih ⊢
    cases hv : (t.type == "video") with
    | true =>
      have ht : t.type = "video" := by simpa using hv
      simp [updateFirstTrack, hv, List.filter_cons, ht]
    | false =>
      simp only [updateFirstTrack, hv, Bool.false_eq_true, if_false]
      cases ha : (t.type == "audio") with
      | true => simp [List.filter_cons, ha, ih]
      | false => simp [List.filter_cons, ha, ih]

theorem ensureVideoTrack_filter_audio (ts : List Track) (g : Nat) :
    (ensureVideoTrack ts g).1.filter (fun t => t.type == "audio") =
      ts.filter (fun t => t.type == "audio") := by
  unfold ensureVideoTrack
  cases h : first_track ts ("video") with
  | some t => rfl
  | none => simp [List.filter_append]

theorem attachAudio_create (ts : List Track) (g2 : Nat) (aseg : Segment)
    (hnone : first_track ts ("audio") = none) :
    attachAudioSeg (ensureAudioTrack ts g2).1 aseg =
      ts ++ [⟨Ident.gen g2, "audio", [aseg]⟩] := by
  unfold ensureAudioTrack
  rw [hnone]
  simp only
  unfold attachAudioSeg
  rw [updateFirstTrack_append_of_none _ _ ts _ (by
    intro t ht
    have := List.find?_eq_none.mp hnone t ht
    simpa using this)]
  simp [updateFirstTrack]

theorem first_track_ensureVideoTrack_audio (ts : List Track) (g : Nat) :
    first_track (ensureVideoTrack ts g).1 ("audio") = first_track ts ("audio") := by
  unfold ensureVideoTrack
  cases h : first_track ts ("video") with
  | some t => rfl
  | none =>
    simp only [first_track_append]
    have hsing : first_track
        [({ id := Ident.gen g, type := "video", segments := [] } : Track)] ("audio") = none := by
      simp [first_track, List.find?]
    rw [hsing]
    cases first_track ts ("audio") <;> rfl

theorem first_track_attachVideoSegs_audio (ts : List Track) (ns : List Segment) :
    first_track (attachVideoSegs ts ns) ("audio") = first_track ts ("audio") := by
  unfold attachVideoSegs
  exact first_track_updateFirstTrack_other
    (fun t => { t with segments := t.segments ++ ns }) ("audio") ("video")
    (by decide) (fun t => rfl) ts

/-- C7 (amended): when build_timeline is handed a non-empty sound list and
a content document without an audio track, exactly one audio track is
created; it contains exactly one segment, for the first sound only, whose
duration is the externally probed duration when that is a non-zero value
and the video-track total otherwise. -/
theorem build_timeline_first_audio :
    ∀ (dc : DraftContent) (images : List String) (a : String) (rest : List String)
      (defDurMs : Int) (idmaps : Option IdMaps) (env : ProbeEnv) (g : Nat),
      first_track dc.tracks ("audio") = none →
      ∃ tr, audioTracks (build_timeline dc images (a :: rest) defDurMs idmaps env g).1 = [tr] ∧
        ∃ seg, tr.segments = [seg] ∧
          seg.target_timerange.start = 0 ∧
          seg.target_timerange.duration =
            (match env.get_audio_duration_us (pyAbs a) with
             | none => video_total env defDurMs images
             | some d => if d == 0 then video_total env defDurMs images else d) := by
  intro dc images a rest defDurMs idmaps env g hnoa
  obtain ⟨hl1, hl2, hl3⟩ :=
    create_accessory_materials_lengths images.length (ensureVideoTrack dc.tracks g).2
  have hcur := buildClips_cursor env (idmapEntries idmaps) defDurMs images
    (create_accessory_materials images.length (ensureVideoTrack dc.tracks g).2).speed_ids
    (create_accessory_materials images.length (ensureVideoTrack dc.tracks g).2).placeholder_ids
    (create_accessory_materials images.length (ensureVideoTrack dc.tracks g).2).sound_mapping_ids
    0 (create_accessory_materials images.length (ensureVideoTrack dc.tracks g).2).gen
    hl1 hl2 hl3
  have hnone2 : first_track
      (attachVideoSegs (ensureVideoTrack dc.tracks g).1
        (buildClips env (idmapEntries idmaps) defDurMs images
          (create_accessory_materials images.length (ensureVideoTrack dc.tracks g).2).speed_ids
          (create_accessory_materials images.length
            (ensureVideoTrack dc.tracks g).2).placeholder_ids
          (create_accessory_materials images.length
            (ensureVideoTrack dc.tracks g).2).sound_mapping_ids
          0 (create_accessory_materials images.length
            (ensureVideoTrack dc.tracks g).2).gen).segments) ("audio") = none := by
    rw [first_track_attachVideoSegs_audio, first_track_ensureVideoTrack_audio]
    exact hnoa
  simp only [build_timeline, audioTracks]
  rw [attachAudio_create _ _ _ hnone2]
  rw [List.filter_append]
  rw [attachVideoSegs_filter_audio, ensureVideoTrack_filter_audio,
    audioTracks_filter_of_none dc.tracks hnoa]
  simp only [List.nil_append, List.filter_cons, List.filter_nil, beq_self_eq_true, if_true]
  refine ⟨_, rfl, _, rfl, rfl, ?_⟩
  cases henv : env.get_audio_duration_us (pyAbs a) with
  | none =>
    simp only [henv]
    exact hcur
  | some d =>
    simp only [henv]
    cases hd : (d == 0) with
    | true => simp only [hd, if_true]; exact hcur
    | false => simp only [hd, Bool.false_eq_true, if_false]

/-- C7 counterexample: with two audio assets only one audio track is
created (the source handles sounds[0] only), refuting the claim that every
audio asset in the list becomes its own audio track. -/
theorem build_timeline_audio_per_asset_cex :
    ((audioTracks (build_timeline emptyContent [] ["m1.mp3", "m2.mp3"] 5000
        none testEnv 0).1).length = 1) ∧
    ¬ ((audioTracks (build_timeline emptyContent [] ["m1.mp3", "m2.mp3"] 5000
        none testEnv 0).1).length = (["m1.mp3", "m2.mp3"] : List String).length) := by
  decide

/-- C7 witness: the single-audio-track property instantiated on a concrete
run with one image and one sound from the empty content document. -/
theorem build_timeline_first_audio_witness :
    first_track emptyContent.tracks ("audio") = none ∧
    (∃ tr, audioTracks (build_timeline emptyContent ["a.jpg"] ("c.mp3" :: []) 5000
        none testEnv 0).1 = [tr] ∧
      ∃ seg, tr.segments = [seg] ∧
        seg.target_timerange.start = 0 ∧
        seg.target_timerange.duration =
          (match testEnv.get_audio_duration_us (pyAbs ("c.mp3")) with
           | none => video_total testEnv 5000 ["a.jpg"]
           | some d => if d == 0 then video_total testEnv 5000 ["a.jpg"] else d)) :=
  ⟨rfl, build_timeline_first_audio emptyContent ["a.jpg"] ("c.mp3") [] 5000 none testEnv 0 rfl⟩

theorem splitSeps_ne_nil (l : List Char) : splitSeps l ≠ [] := by
  cases l with
  | nil => simp [splitSeps]
  | cons c rest =>
    simp only [splitSeps]
    split
    · simp
    · cases h : splitSeps rest <;> simp [h]

theorem joinSep_cons_cons (c : Char) (p q : List Char) (ps : List (List Char)) :
    joinSep c (p :: q :: ps) = p ++ c :: joinSep c (q :: ps) := rfl

theorem joinSep_concat (c : Char) (x : List Char) :
    ∀ ps : List (List Char),
      joinSep c (ps ++ [x]) = if ps = [] then x else joinSep c ps ++ c :: x := by
  intro ps
  induction ps with
  | nil => rfl
  | cons p ps ih =>
    cases ps with
    | nil => rfl
    | cons q ps2 =>
      simp only [List.cons_append, joinSep_cons_cons,
        if_neg (by simp : ¬(p :: q :: ps2 = []))]
      rw [← List.cons_append, ih, if_neg (by simp : ¬(q :: ps2 = []))]
      simp [List.append_assoc]

theorem joinSep_splitSeps (c : Char) :
    ∀ l : List Char, (∀ x ∈ l, isSep x = true → x = c) →
      joinSep c (splitSeps l) = l := by
  intro l
  induction l with
  | nil => intro _; rfl
  | cons a rest ih =>
    intro h
    have hrest : ∀ x ∈ rest, isSep x = true → x = c :=
      fun x hx => h x (List.mem_cons_of_mem a hx)
    have hne := splitSeps_ne_nil rest
    cases ha : isSep a with
    | true =>
      have hac : a = c := h a (List.mem_cons_self a rest) ha
      simp only [splitSeps, ha, if_true]
      cases hsp : splitSeps rest with
      | nil => exact absurd hsp hne
      | cons p ps =>
        have ihr := ih hrest
        rw [hsp] at ihr
        rw [joinSep_cons_cons, List.nil_append, ihr, hac]
    | false =>
      simp only [splitSeps, ha, Bool.false_eq_true, if_false]
      cases hsp : splitSeps rest with
      | nil => exact absurd hsp hne
      | cons p ps =>
        have ihr := ih hrest
        rw [hsp] at ihr
        show joinSep c ((a :: p) :: ps) = a :: rest
        cases ps with
        | nil =>
          simp only [joinSep] at ihr ⊢
          rw [ihr]
        | cons q ps2 =>
          rw [joinSep_cons_cons] at ihr
          rw [joinSep_cons_cons, List.cons_append, ihr]

theorem dominantSep_uniform (l : List Char)
    (h : ¬(('\\' ∈ l) ∧ ('/' ∈ l))) :
    ∀ x ∈ l, isSep x = true → x = dominantSep l := by
  intro x hx hsep
  have hx2 : x = '/' ∨ x = '\\' := by
    simp only [isSep, Bool.or_eq_true, beq_iff_eq] at hsep
    exact hsep
  unfold dominantSep
  rcases hx2 with h1 | h1
  · subst h1
    have hnb : '\\' ∉ l := fun hb => h ⟨hb, hx⟩
    rw [if_neg]
    intro hcond
    exact hnb (by simpa using hcond.1)
  · subst h1
    have hnf : '/' ∉ l := fun hf => h ⟨hx, hf⟩
    rw [if_pos]
    constructor
    · exact List.elem_eq_true_of_mem hx
    · rw [List.count_eq_zero.mpr hnf]
      exact Nat.zero_le _

theorem toList_ne_nil (s : String) (h : s ≠ "") : s.toList ≠ [] := by
  intro hx
  apply h
  cases s with
  | mk data => simp_all [String.toList]

theorem replace_last_component_eq (p pn : String) (h1 : p ≠ "") :
    replace_last_component p pn =
      if startsWithSep p.toList then
        String.mk (dominantSep p.toList ::
          joinSep (dominantSep p.toList)
            (((splitSeps p.toList).dropLast ++ [pn.toList]).filter (fun q => !q.isEmpty)))
      else
        String.mk (joinSep (dominantSep p.toList)
          ((splitSeps p.toList).dropLast ++ [pn.toList])) := by
  unfold replace_last_component
  simp only [beq_iff_eq, h1, splitSeps_ne_nil p.toList, ite_false, if_false]

theorem replace_last_component_toList (p pn : String) (h1 : p ≠ "") :
    (replace_last_component p pn).toList =
      if startsWithSep p.toList then
        dominantSep p.toList ::
          joinSep (dominantSep p.toList)
            (((splitSeps p.toList).dropLast ++ [pn.toList]).filter (fun q => !q.isEmpty))
      else
        joinSep (dominantSep p.toList)
          ((splitSeps p.toList).dropLast ++ [pn.toList]) := by
  rw [replace_last_component_eq p pn h1]
  cases hsw : startsWithSep p.toList <;> rfl

theorem replace_last_component_spec (p pn : String)
    (h1 : p ≠ "")
    (h2 : ¬(('\\' ∈ p.toList) ∧ ('/' ∈ p.toList)))
    (h3 : startsWithSep p.toList = true →
      (∀ q ∈ (splitSeps p.toList).tail, q ≠ []) ∧ pn ≠ "") :
    ∃ P, p.toList = P ++ lastComponent p.toList ∧
      (replace_last_component p pn).toList = P ++ pn.toList := by
  have hround := joinSep_splitSeps (dominantSep p.toList) p.toList
    (dominantSep_uniform p.toList h2)
  rw [replace_last_component_toList p pn h1]
  cases hsw : startsWithSep p.toList with
  | false =>
    rw [if_neg Bool.false_ne_true]
    rcases List.eq_nil_or_concat (splitSeps p.toList) with hnil | ⟨qs, b, hqs⟩
    · exact absurd hnil (splitSeps_ne_nil p.toList)
    · rw [List.concat_eq_append] at hqs
      have hlast : lastComponent p.toList = b := by
        unfold lastComponent
        rw [hqs]
        exact List.getLastD_concat _ _ _
      have hdrop : (splitSeps p.toList).dropLast = qs := by
        rw [hqs]
        exact List.dropLast_concat ..
      have hl : p.toList = joinSep (dominantSep p.toList) (qs ++ [b]) := by
        rw [← hqs, hround]
      rw [hlast, hdrop]
      cases qs with
      | nil =>
        refine ⟨[], ?_, ?_⟩
        · nth_rewrite 1 [hl]
          simp [joinSep]
        · simp [joinSep]
      | cons q0 qs2 =>
        refine ⟨joinSep (dominantSep p.toList) (q0 :: qs2) ++ [dominantSep p.toList], ?_, ?_⟩
        · nth_rewrite 1 [hl]
          rw [joinSep_concat, if_neg (by simp : ¬(q0 :: qs2 = []))]
          simp [List.append_assoc]
        · rw [joinSep_concat, if_neg (by simp : ¬(q0 :: qs2 = []))]
          simp [List.append_assoc]
  | true =>
    rw [if_pos rfl]
    obtain ⟨htail, hpn⟩ := h3 hsw
    cases hl : p.toList with
    | nil =>
      rw [hl] at hsw
      simp [startsWithSep] at hsw
    | cons a rest =>
      rw [hl] at hsw htail h2
      have ha : isSep a = true := by simpa [startsWithSep] using hsw
      have hsep_a : a = dominantSep (a :: rest) :=
        dominantSep_uniform (a :: rest) h2 a (List.mem_cons_self a rest) ha
      have hrest_round : joinSep (dominantSep (a :: rest)) (splitSeps rest) = rest :=
        joinSep_splitSeps _ rest (fun x hx hsx =>
          dominantSep_uniform (a :: rest) h2 x (List.mem_cons_of_mem a hx) hsx)
      have hsplit : splitSeps (a :: rest) = [] :: splitSeps rest := by
        simp [splitSeps, ha]
      rcases List.eq_nil_or_concat (splitSeps rest) with hnil | ⟨qs, b, hqs⟩
      · exact absurd hnil (splitSeps_ne_nil rest)
      · rw [List.concat_eq_append] at hqs
        have htail2 : ∀ q ∈ qs ++ [b], q ≠ [] := fun q hq =>
          htail q (by rw [hsplit, List.tail_cons, hqs]; exact hq)
        have hlast : lastComponent (a :: rest) = b := by
          unfold lastComponent
          rw [hsplit, hqs, ← List.cons_append]
          exact List.getLastD_concat _ _ _
        have hdrop : (splitSeps (a :: rest)).dropLast = [] :: qs := by
          rw [hsplit, hqs, ← List.cons_append]
          exact List.dropLast_concat ..
        have hrest2 : rest = joinSep (dominantSep (a :: rest)) (qs ++ [b]) := by
          rw [← hqs, hrest_round]
        have hpn2 : (pn.toList).isEmpty = false := by
          cases hx : pn.toList with
          | nil => exact absurd hx (toList_ne_nil pn hpn)
          | cons c cs => rfl
        have hq : ∀ q ∈ qs, (!q.isEmpty) = true := by
          intro q hqm
          have hne2 := htail2 q (List.mem_append_left _ hqm)
          cases hx : q with
          | nil => exact absurd hx hne2
          | cons c cs => rfl
        have hpn3 : pn.data ≠ [] := toList_ne_nil pn hpn
        have hfilter : (([] :: qs) ++ [pn.toList]).filter (fun q => !q.isEmpty) =
            qs ++ [pn.toList] := by
          simp [List.filter_append, List.filter_eq_self.mpr hq, hpn2, hpn3]
        rw [hdrop, hlast, hfilter, ← hsep_a]
        rw [← hsep_a] at hrest2
        cases qs with
        | nil =>
          refine ⟨[a], ?_, ?_⟩
          · rw [hrest2]
            simp [joinSep]
          · simp [joinSep]
        | cons q0 qs2 =>
          refine ⟨a :: (joinSep a (q0 :: qs2) ++ [a]), ?_, ?_⟩
          · rw [hrest2, joinSep_concat, if_neg (by simp : ¬(q0 :: qs2 = []))]
            simp [List.append_assoc]
          · rw [joinSep_concat, if_neg (by simp : ¬(q0 :: qs2 = []))]
            simp [List.append_assoc]

theorem sync_all_fold_path_eq {Ops : Type} (dc : DraftContent) (dmi : MetaInfo)
    (dvs : VirtualStore) (ops : Ops) (pn : String) (pd : Option String) (force : Bool)
    (h1 : dmi.draft_fold_path ≠ "") :
    (sync_all dc dmi dvs ops pn pd force).2.1.draft_fold_path =
      replace_last_component dmi.draft_fold_path pn := by
  unfold sync_all
  cases hf : (force || (dmi.draft_name == "")) <;> simp [hf, h1]

/-- C8 (corrected): on a non-empty fold path whose separators are uniform in
style, sync_all rewrites exactly the last path component to the project name
and keeps the prefix verbatim; for absolute paths the inner components must
be non-empty and the project name non-empty, since the source filters empty
parts there. -/
theorem sync_all_fold_path {Ops : Type} (dc : DraftContent) (dmi : MetaInfo)
    (dvs : VirtualStore) (ops : Ops) (pn : String) (pd : Option String) (force : Bool)
    (h1 : dmi.draft_fold_path ≠ "")
    (h2 : ¬(('\\' ∈ dmi.draft_fold_path.toList) ∧ ('/' ∈ dmi.draft_fold_path.toList)))
    (h3 : startsWithSep dmi.draft_fold_path.toList = true →
      (∀ q ∈ (splitSeps dmi.draft_fold_path.toList).tail, q ≠ []) ∧ pn ≠ "") :
    ∃ P, dmi.draft_fold_path.toList = P ++ lastComponent dmi.draft_fold_path.toList ∧
      ((sync_all dc dmi dvs ops pn pd force).2.1.draft_fold_path).toList =
        P ++ pn.toList := by
  rw [sync_all_fold_path_eq dc dmi dvs ops pn pd force h1]
  exact replace_last_component_spec dmi.draft_fold_path pn h1 h2 h3

/-- C8 counterexample: on the mixed-separator path a backslash b slash c the
rejoin uses the dominant backslash everywhere, so the forward-slash separator
before the last component is not preserved verbatim: the output is
a backslash b backslash N, not a backslash b slash N. -/
theorem sync_all_separator_cex :
    ((sync_all emptyContent mixedMeta emptyVStore 0 ("N") none true).2.1.draft_fold_path
        = "a\\b\\N") ∧
    ¬ ((sync_all emptyContent mixedMeta emptyVStore 0 ("N") none true).2.1.draft_fold_path
        = "a\\b/N") := by
  decide

/-- C8 witness: the corrected rewrite property instantiated on a concrete
Windows-style fold path and project name. -/
theorem sync_all_fold_path_witness :
    ∃ P, (winMeta.draft_fold_path).toList =
        P ++ lastComponent (winMeta.draft_fold_path).toList ∧
      ((sync_all emptyContent winMeta emptyVStore 0 ("NewProj") none
          true).2.1.draft_fold_path).toList = P ++ ("NewProj" : String).toList :=
  sync_all_fold_path emptyContent winMeta emptyVStore 0 ("NewProj") none true
    (by decide) (by decide) (by decide)

end CapCut
